import Mathlib

/-!
Shallow embedding of the Rentool orchestration layer
(`app/src/main/python/rpa_wrapper.py` and
`app/src/main/python/decompile_wrapper.py`).

External collaborators (RenPyArchive codec, unrpyc decompiler, the
filesystem) are modelled as environment data supplying, for each
item, whether the corresponding external call succeeds or raises and
with what message.  Wall-clock timestamps (`startTime`,
`lastUpdateTime`) are not modelled: they carry no control-flow or
result information.
-/

namespace Rentool

/-- One JSON object written by `_write_progress` (timestamps omitted). -/

structure Snapshot where
  operation : String
  totalFiles : Nat
  processedFiles : Nat
  currentFile : String
  status : String
  errorMessage : String
deriving DecidableEq, Repr

/-- The progress channel: `attached` models `progress_file` being non-None;
`ok k` tells whether the k-th write attempt succeeds at the OS level
(`open`/`json.dump` not raising); `tr` is the sequence of snapshots
successfully written, in order.  `_write_progress` swallows any write
failure (`except: pass`). -/

structure Chan where
  attached : Bool
  ok : Nat → Bool
  n : Nat
  tr : List Snapshot

/-- `_write_progress(progress_file, data)`: no-op when no channel is
attached; otherwise attempts the write and silently drops failures. -/

def write_progress (c : Chan) (s : Snapshot) : Chan :=
  if c.attached then
    { c with n := c.n + 1, tr := if c.ok c.n then c.tr ++ [s] else c.tr }
  else c

/-- A channel that is attached and whose writes all succeed. -/

def AllOk (c : Chan) : Prop := c.attached = true ∧ ∀ k, c.ok k = true

def chOn : Chan := ⟨true, fun _ => true, 0, []⟩

def chOff : Chan := ⟨false, fun _ => true, 0, []⟩

/-- The result dict shared by `extract_rpa` and `create_rpa`:
`success`, `message`, `files`. -/

structure OpResult where
  success : Bool
  message : String
  files : List String
deriving DecidableEq, Repr

/-! ## extract_rpa -/

/-- One archive entry as seen by the extract loop.  `outcome = none`
means `archive.read`, directory creation and the disk write all
succeed; `outcome = some e` means one of them raises with message `e`. -/

structure ExtractItem where
  filename : String
  outcome : Option String
deriving DecidableEq, Repr

/-- Environment for one `extract_rpa` call: `openRes` is the outcome of
`RenPyArchive(rpa_file_path)` plus `archive.list()`; `mkdirErr` a
possible failure of `os.makedirs(output_dir)`. -/

structure ExtractEnv where
  openRes : Except String (List ExtractItem)
  mkdirErr : Option String

def exSnap (tf pf : Nat) (cf st em : String) : Snapshot :=
  ⟨"extract", tf, pf, cf, st, em⟩

/-- The `for idx, filename in enumerate(files)` loop of `extract_rpa`.
Returns (early failure result if any, extracted_files, channel). -/

def extractLoop (total : Nat) :
    List ExtractItem → Nat → List String → Chan →
    Option OpResult × List String × Chan
  | [], _, acc, c => (none, acc, c)
  | it :: rest, idx, acc, c =>
    match it.outcome with
    | none =>
      let acc' := acc ++ [it.filename]
      let c' := if idx % 5 == 0 || idx == total - 1 then
          write_progress c (exSnap total (idx + 1) it.filename "in_progress" "")
        else c
      extractLoop total rest (idx + 1) acc' c'
    | some e =>
      let msg := "Error extracting " ++ it.filename ++ ": " ++ e
      (some ⟨false, msg, acc⟩, acc,
        write_progress c (exSnap total idx it.filename "failed" msg))

structure ExtractOut where
  result : OpResult
  chan : Chan

/-- `extract_rpa(rpa_file_path, output_dir, progress_file)`. -/

def extract_rpa (env : ExtractEnv) (c : Chan) : ExtractOut :=
  match env.openRes with
  | .error e =>
    let msg := "Error: " ++ e
    ⟨⟨false, msg, []⟩, write_progress c (exSnap 0 0 "" "failed" msg)⟩
  | .ok files =>
    let total := files.length
    let c1 := write_progress c (exSnap total 0 "Loading archive..." "in_progress" "")
    match env.mkdirErr with
    | some e =>
      let msg := "Error: " ++ e
      ⟨⟨false, msg, []⟩, write_progress c1 (exSnap 0 0 "" "failed" msg)⟩
    | none =>
      match extractLoop total files 0 [] c1 with
      | (some r, _, c2) => ⟨r, c2⟩
      | (none, acc, c2) =>
        ⟨⟨true, "Successfully extracted " ++ toString acc.length ++ " files", acc⟩,
          write_progress c2 (exSnap total total "Complete" "completed" "")⟩

/-! ## create_rpa -/

/-- A node of the source directory tree as traversed by
`create_rpa.add_directory` via `os.listdir`, in listing order.
For a file, `outcome = none` means reading it and `archive.add`
succeed; `outcome = some e` means one of them raises with message `e`. -/

inductive FSItem where
  | file (name : String) (outcome : Option String)
  | dir (name : String) (children : List FSItem)
deriving Repr

/-- The `os.walk` pre-count: total number of files (directories excluded)
in the tree; a nonexistent `source_dir` walks as an empty tree. -/

def countFiles : List FSItem → Nat
  | [] => 0
  | .file _ _ :: rest => countFiles rest + 1
  | .dir _ ch :: rest => countFiles ch + countFiles rest

/-- `os.path.join` on a POSIX host (Android), for the paths this code
builds: join with a single separator, empty prefix gives the name. -/

def pjoin (a b : String) : String := if a = "" then b else a ++ "/" ++ b

def crSnap (tf pf : Nat) (cf st em : String) : Snapshot :=
  ⟨"create", tf, pf, cf, st, em⟩

/-- `added_files`, `file_index[0]` and the channel, threaded through the
recursive walk. -/

structure AddSt where
  added : List String
  fidx : Nat
  chan : Chan

/-- The data live in `create_rpa`'s locals when `add_directory` raises:
the exception message, plus `added_files`, `file_index[0]` and the
channel as they stood at the raise. -/

structure AddErr where
  msg : String
  added : List String
  fidx : Nat
  chan : Chan

/-- `create_rpa.add_directory(dir_path, archive_prefix)`:
recursive walk over the listing; on the first file whose read or
`archive.add` raises, writes a failed snapshot and raises
`Exception(error_msg)` (modelled as `.error`). -/

def add_directory (total : Nat) :
    List FSItem → String → String → AddSt → Except AddErr AddSt
  | [], _, _, st => .ok st
  | .dir name ch :: rest, dp, ap, st =>
    match add_directory total ch (pjoin dp name) (pjoin ap name) st with
    | .error e => .error e
    | .ok st' => add_directory total rest dp ap st'
  | .file name outcome :: rest, dp, ap, st =>
    let itemPath := pjoin dp name
    let archPath := pjoin ap name
    match outcome with
    | none =>
      let added' := st.added ++ [archPath]
      let fidx' := st.fidx + 1
      let c' := if fidx' % 5 == 0 || fidx' == total then
          write_progress st.chan (crSnap total fidx' archPath "in_progress" "")
        else st.chan
      add_directory total rest dp ap ⟨added', fidx', c'⟩
    | some e =>
      let msg := "Error adding " ++ itemPath ++ ": " ++ e
      .error ⟨msg, st.added, st.fidx,
        write_progress st.chan (crSnap total st.fidx archPath "failed" msg)⟩

/-- Environment for one `create_rpa` call: the source tree, a possible
failure of `RenPyArchive(version=..., key=...)`, and a possible failure
of `archive.save(output_rpa_path)`. -/

structure CreateEnv where
  tree : List FSItem
  newErr : Option String
  saveErr : Option String

/-- `saveInvoked`: whether `archive.save` was reached; `saved`: the
archive persisted at `output_rpa_path` (its entry list), `none` when
nothing was persisted. -/

structure CreateOut where
  result : OpResult
  saveInvoked : Bool
  saved : Option (List String)
  chan : Chan

/-- `create_rpa(source_dir, output_rpa_path, version, key, progress_file)`.
`version` and `key` only parameterize the external codec and are not
modelled beyond `newErr`. -/

def create_rpa (env : CreateEnv) (sourceDir : String) (c : Chan) : CreateOut :=
  let total := countFiles env.tree
  if total == 0 then
    let msg := "No files found in source directory"
    ⟨⟨false, msg, []⟩, false, none, write_progress c (crSnap 0 0 "" "failed" msg)⟩
  else
    let c1 := write_progress c (crSnap total 0 "Initializing archive..." "in_progress" "")
    match env.newErr with
    | some e =>
      let msg := "Error: " ++ e
      ⟨⟨false, msg, []⟩, false, none,
        write_progress c1 (crSnap total 0 "" "failed" msg)⟩
    | none =>
      match add_directory total env.tree sourceDir "" ⟨[], 0, c1⟩ with
      | .error er =>
        let msg := "Error: " ++ er.msg
        ⟨⟨false, msg, []⟩, false, none,
          write_progress er.chan (crSnap total er.fidx "" "failed" msg)⟩
      | .ok st =>
        match env.saveErr with
        | some e =>
          let msg := "Error: " ++ e
          ⟨⟨false, msg, []⟩, true, none,
            write_progress st.chan (crSnap total st.fidx "" "failed" msg)⟩
        | none =>
          ⟨⟨true, "Successfully created archive with " ++ toString st.added.length ++ " files",
              st.added⟩, true, some st.added,
            write_progress st.chan (crSnap total total "Complete" "completed" "")⟩

/-! ## decompile_directory -/

/-- Outcome of one `decompile_rpyc` call: the context's terminal state
(`ok` / `skip` / anything else), or an exception with message `e`. -/

inductive DecompOutcome where
  | ok | skip | other
  | exn (e : String)
deriving DecidableEq, Repr

/-- One file found by the `os.walk` scan: its directory, its base name
(as yielded by `os.walk`, so `Path(join(root, file)).name = name`), and
what decompiling it does. -/

structure DFile where
  dir : String
  name : String
  outcome : DecompOutcome
deriving DecidableEq, Repr

/-- The case-insensitive extension match of the scan:
`file.lower().endswith('.rpyc') or file.lower().endswith('.rpymc')`,
on the name's character list (lower-casing is ASCII as in `Char.toLower`). -/

def isCompiledExt (nm : String) : Bool :=
  ".rpyc".data.isSuffixOf (nm.data.map Char.toLower)
    || ".rpymc".data.isSuffixOf (nm.data.map Char.toLower)

/-- `rpyc_files`: files kept by the scan, in walk order. -/

def matchedFiles (files : List DFile) : List DFile :=
  files.filter (fun f => isCompiledExt f.name)

structure DecompStats where
  total : Nat
  success : Nat
  skipped : Nat
  failed : Nat
deriving DecidableEq, Repr

structure DecompResult where
  success : Bool
  message : String
  stats : DecompStats
deriving DecidableEq, Repr

def dcSnap (tf pf : Nat) (cf st em : String) : Snapshot :=
  ⟨"decompile", tf, pf, cf, st, em⟩

/-- The `for idx, rpyc_file in enumerate(rpyc_files)` loop: progress is
written before processing; the context state (or an exception) bumps
exactly one of the three counters, and the loop always continues. -/

def decompLoop (total : Nat) :
    List DFile → Nat → Nat × Nat × Nat → Chan → (Nat × Nat × Nat) × Chan
  | [], _, st, c => (st, c)
  | f :: rest, idx, (s, k, fl), c =>
    let c' := if idx % 5 == 0 || idx == total - 1 then
        write_progress c (dcSnap total idx f.name "in_progress" "")
      else c
    let st' := match f.outcome with
      | .ok => (s + 1, k, fl)
      | .skip => (s, k + 1, fl)
      | .other => (s, k, fl + 1)
      | .exn _ => (s, k, fl + 1)
    decompLoop total rest (idx + 1) st' c'

/-- Environment for one `decompile_directory` call: `sourceDir` (`""`
models both None and the empty string), whether `os.path.exists` holds,
and the files the walk yields. -/

structure DecompEnv where
  sourceDir : String
  dirExists : Bool
  files : List DFile

structure DecompOut where
  result : DecompResult
  chan : Chan

/-- `decompile_directory(source_dir, progress_file)`. -/

def decompile_directory (env : DecompEnv) (c : Chan) : DecompOut :=
  if env.sourceDir = "" then
    let msg := "Source directory is None or empty"
    ⟨⟨false, msg, ⟨0, 0, 0, 0⟩⟩, write_progress c (dcSnap 0 0 "" "failed" msg)⟩
  else if !env.dirExists then
    let msg := "Source directory does not exist: " ++ env.sourceDir
    ⟨⟨false, msg, ⟨0, 0, 0, 0⟩⟩, write_progress c (dcSnap 0 0 "" "failed" msg)⟩
  else
    let rpycFiles := matchedFiles env.files
    let total := rpycFiles.length
    if total == 0 then
      let msg := "No .rpyc files found in directory"
      ⟨⟨false, msg, ⟨0, 0, 0, 0⟩⟩, write_progress c (dcSnap 0 0 "" "failed" msg)⟩
    else
      let c1 := write_progress c (dcSnap total 0 "Scanning files..." "in_progress" "")
      match decompLoop total rpycFiles 0 (0, 0, 0) c1 with
      | ((s, k, fl), c2) =>
        let c3 := write_progress c2 (dcSnap total total "Complete" "completed" "")
        let msg := "Decompiled " ++ toString total ++ " files (" ++ toString s
          ++ " successful, " ++ toString k ++ " skipped, " ++ toString fl ++ " failed)"
        ⟨⟨true, msg, ⟨total, s, k, fl⟩⟩, c3⟩

/-! ## list_rpa_files -/

structure ListResult where
  success : Bool
  message : String
  files : List String
  version : String
deriving DecidableEq, Repr

/-- Environment for one `list_rpa_files` call: archive open/listing
outcome and `str(archive.version)`. -/

structure ListEnv where
  openRes : Except String (List String)
  version : String

/-- `list_rpa_files(rpa_file_path)`. -/

def list_rpa_files (env : ListEnv) : ListResult :=
  match env.openRes with
  | .ok fs =>
    ⟨true, "Found " ++ toString fs.length ++ " files",
      fs.mergeSort (fun a b => decide (a ≤ b)), env.version⟩
  | .error e => ⟨false, "Error: " ++ e, [], "unknown"⟩

/-! ## Basic channel lemmas -/

/-- A snapshot is terminal when its status is `completed` or `failed`. -/

def isTerminal (s : Snapshot) : Bool :=
  s.status == "completed" || s.status == "failed"

/-! ## Pure mirror of the extract loop: result and attempted trace -/

/-- Channel-free mirror of `extractLoop`: first component is (early
failure result, extracted files), second is the list of snapshots the
loop hands to `_write_progress`, in order. -/

def exM (total : Nat) : List ExtractItem → Nat → List String →
    (Option OpResult × List String) × List Snapshot
  | [], _, acc => ((none, acc), [])
  | it :: rest, idx, acc =>
    match it.outcome with
    | none =>
      let em := if idx % 5 == 0 || idx == total - 1 then
          [exSnap total (idx + 1) it.filename "in_progress" ""] else []
      let r := exM total rest (idx + 1) (acc ++ [it.filename])
      (r.1, em ++ r.2)
    | some e =>
      let msg := "Error extracting " ++ it.filename ++ ": " ++ e
      ((some ⟨false, msg, acc⟩, acc), [exSnap total idx it.filename "failed" msg])

/-- Channel-free mirror of `extract_rpa`'s returned result. -/

def extractResM (env : ExtractEnv) : OpResult :=
  match env.openRes with
  | .error e => ⟨false, "Error: " ++ e, []⟩
  | .ok files =>
    match env.mkdirErr with
    | some e => ⟨false, "Error: " ++ e, []⟩
    | none =>
      match (exM files.length files 0 []).1 with
      | (some r, _) => r
      | (none, acc) =>
        ⟨true, "Successfully extracted " ++ toString acc.length ++ " files", acc⟩

/-- Mirror of the full snapshot sequence `extract_rpa` hands to
`_write_progress`, in order. -/

def extractTrM (env : ExtractEnv) : List Snapshot :=
  match env.openRes with
  | .error e => [exSnap 0 0 "" "failed" ("Error: " ++ e)]
  | .ok files =>
    let total := files.length
    let init := exSnap total 0 "Loading archive..." "in_progress" ""
    match env.mkdirErr with
    | some e => [init, exSnap 0 0 "" "failed" ("Error: " ++ e)]
    | none =>
      init :: ((exM total files 0 []).2 ++
        (match (exM total files 0 []).1.1 with
         | none => [exSnap total total "Complete" "completed" ""]
         | some _ => []))

/-- Entries whose read and write both succeed. -/

def mkOkItems (names : List String) : List ExtractItem :=
  names.map (fun nm => ⟨nm, none⟩)

/-- The periodic-emission rule, written out: processing the entry with
0-based index `idx` emits a snapshot exactly when `idx` is a multiple
of 5 or `idx` is the last index, and that snapshot carries
`processedFiles = idx + 1` and the entry's name. -/

def extractEmitsFrom (total : Nat) : Nat → List String → List Snapshot
  | _, [] => []
  | idx, nm :: rest =>
    (if idx % 5 == 0 || idx == total - 1 then
        [exSnap total (idx + 1) nm "in_progress" ""] else [])
      ++ extractEmitsFrom total (idx + 1) rest

/-! ## Pure mirror of the create walk -/

/-- Channel-free mirror of `add_directory`: the pure outcome (`inl`:
exception message with `added_files`/`file_index` at the raise; `inr`:
final `added_files`/`file_index`), paired with the snapshots handed to
`_write_progress`, in order. -/

def addM (total : Nat) : List FSItem → String → String → List String → Nat →
    ((String × List String × Nat) ⊕ (List String × Nat)) × List Snapshot
  | [], _, _, added, fidx => (.inr (added, fidx), [])
  | .dir name ch :: rest, dp, ap, added, fidx =>
    match addM total ch (pjoin dp name) (pjoin ap name) added fidx with
    | (.inl e, L) => (.inl e, L)
    | (.inr (a, f), L) =>
      let r := addM total rest dp ap a f
      (r.1, L ++ r.2)
  | .file name outcome :: rest, dp, ap, added, fidx =>
    match outcome with
    | none =>
      let em := if (fidx + 1) % 5 == 0 || fidx + 1 == total then
          [crSnap total (fidx + 1) (pjoin ap name) "in_progress" ""] else []
      let r := addM total rest dp ap (added ++ [pjoin ap name]) (fidx + 1)
      (r.1, em ++ r.2)
    | some e =>
      let msg := "Error adding " ++ pjoin dp name ++ ": " ++ e
      (.inl (msg, added, fidx),
        [crSnap total fidx (pjoin ap name) "failed" msg])

/-- Pure projection of an `add_directory` outcome. -/

def addResP : Except AddErr AddSt → (String × List String × Nat) ⊕ (List String × Nat)
  | .error e => .inl (e.msg, e.added, e.fidx)
  | .ok st => .inr (st.added, st.fidx)

/-- The channel as it stands when `add_directory` returns or raises. -/

def addChan : Except AddErr AddSt → Chan
  | .error e => e.chan
  | .ok st => st.chan

/-- `file_index[0]` as it stands when the walk returns or raises. -/

def exitF : ((String × List String × Nat) ⊕ (List String × Nat)) → Nat
  | .inl (_, _, f) => f
  | .inr (_, f) => f

/-- Channel-free mirror of `create_rpa`'s returned result. -/

def createResM (env : CreateEnv) (sd : String) : OpResult :=
  if countFiles env.tree == 0 then ⟨false, "No files found in source directory", []⟩
  else
    match env.newErr with
    | some e => ⟨false, "Error: " ++ e, []⟩
    | none =>
      match (addM (countFiles env.tree) env.tree sd "" [] 0).1 with
      | .inl (m, _, _) => ⟨false, "Error: " ++ m, []⟩
      | .inr (added, _) =>
        match env.saveErr with
        | some e => ⟨false, "Error: " ++ e, []⟩
        | none =>
          ⟨true, "Successfully created archive with " ++ toString added.length ++ " files",
            added⟩

/-- Mirror of (`archive.save` reached, archive persisted on disk). -/

def createSaveM (env : CreateEnv) (sd : String) : Bool × Option (List String) :=
  if countFiles env.tree == 0 then (false, none)
  else
    match env.newErr with
    | some _ => (false, none)
    | none =>
      match (addM (countFiles env.tree) env.tree sd "" [] 0).1 with
      | .inl _ => (false, none)
      | .inr (added, _) =>
        match env.saveErr with
        | some _ => (true, none)
        | none => (true, some added)

/-- Mirror of the full snapshot sequence `create_rpa` hands to
`_write_progress`, in order. -/

def createTrM (env : CreateEnv) (sd : String) : List Snapshot :=
  if countFiles env.tree == 0 then
    [crSnap 0 0 "" "failed" "No files found in source directory"]
  else
    let total := countFiles env.tree
    let init := crSnap total 0 "Initializing archive..." "in_progress" ""
    match env.newErr with
    | some e => [init, crSnap total 0 "" "failed" ("Error: " ++ e)]
    | none =>
      init :: ((addM total env.tree sd "" [] 0).2 ++
        match (addM total env.tree sd "" [] 0).1 with
        | .inl (m, _, f) => [crSnap total f "" "failed" ("Error: " ++ m)]
        | .inr (_, f) =>
          match env.saveErr with
          | some e => [crSnap total f "" "failed" ("Error: " ++ e)]
          | none => [crSnap total total "Complete" "completed" ""])

/-! ## Pure mirror of the decompile loop -/

/-- Outcomes counted as failed: a context state other than `ok`/`skip`,
or an exception from `decompile_rpyc`. -/

def isFailOutcome : DecompOutcome → Bool
  | .ok => false
  | .skip => false
  | .other => true
  | .exn _ => true

/-- Channel-free mirror of `decompLoop`: final counters and the
snapshots handed to `_write_progress`, in order. -/

def dcM (total : Nat) : List DFile → Nat → Nat × Nat × Nat →
    (Nat × Nat × Nat) × List Snapshot
  | [], _, st => (st, [])
  | f :: rest, idx, (s, k, fl) =>
    let em := if idx % 5 == 0 || idx == total - 1 then
        [dcSnap total idx f.name "in_progress" ""] else []
    let st' := match f.outcome with
      | .ok => (s + 1, k, fl)
      | .skip => (s, k + 1, fl)
      | .other => (s, k, fl + 1)
      | .exn _ => (s, k, fl + 1)
    let r := dcM total rest (idx + 1) st'
    (r.1, em ++ r.2)

/-- Per-outcome tallies over a file list. -/

def countOk (l : List DFile) : Nat := l.countP (fun f => f.outcome == .ok)

def countSkip (l : List DFile) : Nat := l.countP (fun f => f.outcome == .skip)

def countFail (l : List DFile) : Nat := l.countP (fun f => isFailOutcome f.outcome)

/-- The periodic-emission rule for `decompile_directory`, written out:
the file with 0-based index `idx` gets a snapshot (written before it is
processed, so with `processedFiles = idx`) exactly when `idx` is a
multiple of 5 or `idx` is the last index, carrying the file's base name. -/

def decompEmitsFrom (total : Nat) : Nat → List String → List Snapshot
  | _, [] => []
  | idx, nm :: rest =>
    (if idx % 5 == 0 || idx == total - 1 then
        [dcSnap total idx nm "in_progress" ""] else [])
      ++ decompEmitsFrom total (idx + 1) rest

/-- Channel-free mirror of `decompile_directory`'s returned result. -/

def decompResM (env : DecompEnv) : DecompResult :=
  if env.sourceDir = "" then
    ⟨false, "Source directory is None or empty", ⟨0, 0, 0, 0⟩⟩
  else if !env.dirExists then
    ⟨false, "Source directory does not exist: " ++ env.sourceDir, ⟨0, 0, 0, 0⟩⟩
  else
    if (matchedFiles env.files).length == 0 then
      ⟨false, "No .rpyc files found in directory", ⟨0, 0, 0, 0⟩⟩
    else
      ⟨true, "Decompiled " ++ toString (matchedFiles env.files).length ++ " files ("
          ++ toString (dcM (matchedFiles env.files).length (matchedFiles env.files) 0 (0, 0, 0)).1.1
          ++ " successful, "
          ++ toString (dcM (matchedFiles env.files).length (matchedFiles env.files) 0 (0, 0, 0)).1.2.1
          ++ " skipped, "
          ++ toString (dcM (matchedFiles env.files).length (matchedFiles env.files) 0 (0, 0, 0)).1.2.2
          ++ " failed)",
        ⟨(matchedFiles env.files).length,
          (dcM (matchedFiles env.files).length (matchedFiles env.files) 0 (0, 0, 0)).1.1,
          (dcM (matchedFiles env.files).length (matchedFiles env.files) 0 (0, 0, 0)).1.2.1,
          (dcM (matchedFiles env.files).length (matchedFiles env.files) 0 (0, 0, 0)).1.2.2⟩⟩

/-- Mirror of the full snapshot sequence `decompile_directory` hands to
`_write_progress`, in order. -/

def decompTrM (env : DecompEnv) : List Snapshot :=
  if env.sourceDir = "" then
    [dcSnap 0 0 "" "failed" "Source directory is None or empty"]
  else if !env.dirExists then
    [dcSnap 0 0 "" "failed" ("Source directory does not exist: " ++ env.sourceDir)]
  else
    if (matchedFiles env.files).length == 0 then
      [dcSnap 0 0 "" "failed" "No .rpyc files found in directory"]
    else
      dcSnap (matchedFiles env.files).length 0 "Scanning files..." "in_progress" ""
        :: ((dcM (matchedFiles env.files).length (matchedFiles env.files) 0 (0, 0, 0)).2
          ++ [dcSnap (matchedFiles env.files).length (matchedFiles env.files).length
              "Complete" "completed" ""])

/-! ## Derived quantities used by the claims -/

/-- `total_files` as the operation computes it at start. -/

def extractTotal (env : ExtractEnv) : Nat :=
  match env.openRes with
  | .ok files => files.length
  | .error _ => 0

/-- Whether the run of `create_rpa` on this environment reaches the
recursive walk and the walk raises on some file. -/

def createWalkFails (env : CreateEnv) (sd : String) : Bool :=
  env.newErr == none
    && (match (addM (countFiles env.tree) env.tree sd "" [] 0).1 with
        | .inl _ => true
        | .inr _ => false)

/-- Concrete run: two files, reading the second raises. -/

def envAddFail : CreateEnv :=
  ⟨[.file "a" none, .file "b" (some "Permission denied")], none, none⟩

/-- Concrete run: two readable files, everything succeeds. -/

def envCreateOk : CreateEnv := ⟨[.file "a" none, .file "b" none], none, none⟩

/-- Concrete run: a directory tree with no files at all. -/

def envEmptyTree : CreateEnv := ⟨[.dir "sub" []], none, none⟩

/-- Concrete run: an archive of six entries that all extract. -/

def envSix : ExtractEnv :=
  ⟨.ok (mkOkItems ["e1", "e2", "e3", "e4", "e5", "e6"]), none⟩

/-- Concrete run: five files discovered by the walk, of which four match
the compiled-script extensions; one decompiles, one raises, one is
skipped, one ends in an unknown context state. -/

def envDecomp5 : DecompEnv :=
  ⟨"game", true,
    [⟨"game", "a.rpyc", .ok⟩, ⟨"game", "b.rpyc", .exn "boom"⟩,
     ⟨"game", "notes.txt", .ok⟩, ⟨"game", "c.RPYC", .skip⟩,
     ⟨"game", "d.rpymc", .other⟩]⟩

/-! ## Lemmas and claim theorems -/

theorem write_progress_tr {c : Chan} (h : AllOk c) (s : Snapshot) :
    (write_progress c s).tr = c.tr ++ [s] := by
  simp [write_progress, h.1, h.2]

theorem write_progress_allOk {c : Chan} (h : AllOk c) (s : Snapshot) :
    AllOk (write_progress c s) := by
  obtain ⟨h1, h2⟩ := h
  constructor <;> simp [write_progress, h1, h2]

theorem extractLoop_mirror (total : Nat) (items : List ExtractItem) :
    ∀ (idx : Nat) (acc : List String) (c : Chan),
    (extractLoop total items idx acc c).1 = (exM total items idx acc).1.1
    ∧ (extractLoop total items idx acc c).2.1 = (exM total items idx acc).1.2
    ∧ (AllOk c →
        (extractLoop total items idx acc c).2.2.tr = c.tr ++ (exM total items idx acc).2
        ∧ AllOk (extractLoop total items idx acc c).2.2) := by
  induction items with
  | nil =>
    intro idx acc c
    exact ⟨rfl, rfl, fun h => ⟨by simp [extractLoop, exM], h⟩⟩
  | cons it rest ih =>
    intro idx acc c
    obtain ⟨nm, outc⟩ := it
    cases outc with
    | some e =>
      refine ⟨rfl, rfl, fun h => ⟨?_, write_progress_allOk h _⟩⟩
      show (write_progress c _).tr = _
      rw [write_progress_tr h]
      rfl
    | none =>
      show (extractLoop total rest (idx + 1) (acc ++ [nm]) _).1 = _ ∧ _
      cases hcond : (idx % 5 == 0 || idx == total - 1) with
      | true =>
        simp only [extractLoop, exM, hcond, if_true]
        obtain ⟨h1, h2, h3⟩ := ih (idx + 1) (acc ++ [nm])
          (write_progress c (exSnap total (idx + 1) nm "in_progress" ""))
        refine ⟨h1, h2, fun h => ?_⟩
        obtain ⟨h4, h5⟩ := h3 (write_progress_allOk h _)
        refine ⟨?_, h5⟩
        rw [h4, write_progress_tr h]
        simp
      | false =>
        simp only [extractLoop, exM, hcond, if_false]
        obtain ⟨h1, h2, h3⟩ := ih (idx + 1) (acc ++ [nm]) c
        exact ⟨h1, h2, h3⟩

theorem extract_rpa_mirror (env : ExtractEnv) (c : Chan) :
    (extract_rpa env c).result = extractResM env
    ∧ (AllOk c → (extract_rpa env c).chan.tr = c.tr ++ extractTrM env) := by
  obtain ⟨openRes, mkdirErr⟩ := env
  cases openRes with
  | error e =>
    refine ⟨rfl, fun h => ?_⟩
    show (write_progress c _).tr = _
    rw [write_progress_tr h]; rfl
  | ok files =>
    cases mkdirErr with
    | some e =>
      refine ⟨rfl, fun h => ?_⟩
      show (write_progress (write_progress c _) _).tr = _
      rw [write_progress_tr (write_progress_allOk h _), write_progress_tr h]
      simp [extractTrM]
    | none =>
      have key : extract_rpa ⟨.ok files, none⟩ c =
          (match extractLoop files.length files 0 []
              (write_progress c (exSnap files.length 0 "Loading archive..." "in_progress" "")) with
           | (some r, _, c2) => ⟨r, c2⟩
           | (none, acc, c2) =>
             ⟨⟨true, "Successfully extracted " ++ toString acc.length ++ " files", acc⟩,
               write_progress c2
                 (exSnap files.length files.length "Complete" "completed" "")⟩) := rfl
      obtain ⟨m1, m2, m3⟩ := extractLoop_mirror files.length files 0 []
        (write_progress c (exSnap files.length 0 "Loading archive..." "in_progress" ""))
      rcases hE : extractLoop files.length files 0 []
          (write_progress c (exSnap files.length 0 "Loading archive..." "in_progress" "")) with
        ⟨res, acc, c2⟩
      rw [hE] at m1 m2 m3
      simp only at m1 m2
      rw [key, hE]
      rcases hres : (exM files.length files 0 []).1.1 with _ | r
      · rw [hres] at m1
        subst m1
        simp only
        constructor
        · show _ = extractResM ⟨.ok files, none⟩
          simp only [extractResM]
          rcases hP : (exM files.length files 0 []).1 with ⟨res1, acc1⟩
          rw [hP] at hres m2
          simp only at hres m2
          subst hres; subst m2
          rfl
        · intro h
          have hall1 := write_progress_allOk h (exSnap files.length 0 "Loading archive..." "in_progress" "")
          obtain ⟨h4, h5⟩ := m3 hall1
          simp only at h4 h5
          show (write_progress c2 _).tr = _
          rw [write_progress_tr h5, h4, write_progress_tr h]
          simp [extractTrM, hres]
      · rw [hres] at m1
        subst m1
        simp only
        constructor
        · show r = extractResM ⟨.ok files, none⟩
          simp only [extractResM]
          rcases hP : (exM files.length files 0 []).1 with ⟨res1, acc1⟩
          rw [hP] at hres
          simp only at hres
          subst hres
          rfl
        · intro h
          have hall1 := write_progress_allOk h (exSnap files.length 0 "Loading archive..." "in_progress" "")
          obtain ⟨h4, h5⟩ := m3 hall1
          simp only at h4 h5
          show c2.tr = _
          rw [h4, write_progress_tr h]
          simp [extractTrM, hres]

theorem isTerminal_in_progress {s : Snapshot} (h : s.status = "in_progress") :
    isTerminal s = false := by
  simp [isTerminal, h]

theorem exM_spec (total : Nat) (items : List ExtractItem) :
    ∀ idx acc, idx + items.length ≤ total →
    (∀ s ∈ (exM total items idx acc).2,
        idx ≤ s.processedFiles ∧ s.processedFiles ≤ total)
    ∧ List.Sorted (· ≤ ·) (((exM total items idx acc).2).map (·.processedFiles))
    ∧ (match (exM total items idx acc).1.1 with
       | none => ∀ s ∈ (exM total items idx acc).2, s.status = "in_progress"
       | some _ => ∃ L f, (exM total items idx acc).2 = L ++ [f]
            ∧ (∀ s ∈ L, s.status = "in_progress") ∧ f.status = "failed") := by
  induction items with
  | nil =>
    intro idx acc h
    refine ⟨by simp [exM], by simp [exM], ?_⟩
    simp [exM]
  | cons it rest ih =>
    intro idx acc h
    obtain ⟨nm, outc⟩ := it
    cases outc with
    | some e =>
      have hexp : (exM total (⟨nm, some e⟩ :: rest) idx acc).2
          = [exSnap total idx nm "failed" ("Error extracting " ++ nm ++ ": " ++ e)] := rfl
      refine ⟨?_, ?_, ?_⟩
      · intro s hs
        rw [hexp] at hs
        simp only [List.mem_singleton] at hs
        subst hs
        refine ⟨Nat.le_refl _, ?_⟩
        show idx ≤ total
        simp only [List.length_cons] at h
        omega
      · rw [hexp]; simp
      · exact ⟨[], _, rfl, by simp, rfl⟩
    | none =>
      have h' : (idx + 1) + rest.length ≤ total := by
        simp only [List.length_cons] at h; omega
      obtain ⟨ihb, ihs, ihst⟩ := ih (idx + 1) (acc ++ [nm]) h'
      have hexp : (exM total (⟨nm, none⟩ :: rest) idx acc).2
          = (if idx % 5 == 0 || idx == total - 1 then
              [exSnap total (idx + 1) nm "in_progress" ""] else [])
            ++ (exM total rest (idx + 1) (acc ++ [nm])).2 := rfl
      have hfst : (exM total (⟨nm, none⟩ :: rest) idx acc).1
          = (exM total rest (idx + 1) (acc ++ [nm])).1 := rfl
      cases hcond : (idx % 5 == 0 || idx == total - 1) with
      | false =>
        rw [hcond, if_neg Bool.false_ne_true, List.nil_append] at hexp
        rw [hexp, hfst]
        refine ⟨?_, ihs, ?_⟩
        · intro s hs
          obtain ⟨hb1, hb2⟩ := ihb s hs
          exact ⟨by omega, hb2⟩
        · exact ihst
      | true =>
        rw [hcond, if_pos rfl, List.singleton_append] at hexp
        rw [hexp, hfst]
        refine ⟨?_, ?_, ?_⟩
        · intro s hs
          rcases List.mem_cons.mp hs with hs | hs
          · subst hs
            refine ⟨Nat.le_succ _, ?_⟩
            show idx + 1 ≤ total
            simp only [List.length_cons] at h
            omega
          · obtain ⟨hb1, hb2⟩ := ihb s hs
            exact ⟨by omega, hb2⟩
        · rw [List.map_cons, List.sorted_cons]
          refine ⟨?_, ihs⟩
          intro b hb
          obtain ⟨s, hs, hbe⟩ := List.mem_map.mp hb
          subst hbe
          show idx + 1 ≤ s.processedFiles
          exact (ihb s hs).1
        · revert ihst
          cases hr : (exM total rest (idx + 1) (acc ++ [nm])).1.1 with
          | none =>
            intro ihst s hs
            rcases List.mem_cons.mp hs with hs | hs
            · subst hs; rfl
            · exact ihst s hs
          | some r =>
            intro ihst
            obtain ⟨L, f, hLf, hL, hf⟩ := ihst
            refine ⟨exSnap total (idx + 1) nm "in_progress" "" :: L, f, by rw [hLf]; simp, ?_, hf⟩
            intro s hs
            rcases List.mem_cons.mp hs with hs | hs
            · subst hs; rfl
            · exact hL s hs

theorem exM_allOk (total : Nat) (names : List String) :
    ∀ idx acc,
    (exM total (mkOkItems names) idx acc).1 = (none, acc ++ names)
    ∧ (exM total (mkOkItems names) idx acc).2 = extractEmitsFrom total idx names := by
  induction names with
  | nil => intro idx acc; exact ⟨by simp [mkOkItems, exM], by simp [mkOkItems, exM, extractEmitsFrom]⟩
  | cons nm rest ih =>
    intro idx acc
    obtain ⟨ih1, ih2⟩ := ih (idx + 1) (acc ++ [nm])
    have hfst : (exM total (mkOkItems (nm :: rest)) idx acc).1
        = (exM total (mkOkItems rest) (idx + 1) (acc ++ [nm])).1 := rfl
    have hsnd : (exM total (mkOkItems (nm :: rest)) idx acc).2
        = (if idx % 5 == 0 || idx == total - 1 then
            [exSnap total (idx + 1) nm "in_progress" ""] else [])
          ++ (exM total (mkOkItems rest) (idx + 1) (acc ++ [nm])).2 := rfl
    constructor
    · rw [hfst, ih1]
      simp
    · rw [hsnd, ih2]
      rfl

theorem exM_failAt (total : Nat) (pre : List ExtractItem) :
    ∀ (idx : Nat) (acc : List String), (∀ it ∈ pre, it.outcome = none) →
    ∀ (nm e : String) (post : List ExtractItem),
    (exM total (pre ++ ⟨nm, some e⟩ :: post) idx acc).1
      = (some ⟨false, "Error extracting " ++ nm ++ ": " ++ e,
            acc ++ pre.map (·.filename)⟩,
         acc ++ pre.map (·.filename)) := by
  induction pre with
  | nil =>
    intro idx acc _ nm e post
    simp [exM]
  | cons it rest ih =>
    intro idx acc hpre nm e post
    obtain ⟨nm0, outc0⟩ := it
    have h0 : outc0 = none := hpre ⟨nm0, outc0⟩ (List.mem_cons_self _ _)
    subst h0
    have hfst : (exM total ((⟨nm0, none⟩ : ExtractItem) :: (rest ++ ⟨nm, some e⟩ :: post)) idx acc).1
        = (exM total (rest ++ ⟨nm, some e⟩ :: post) (idx + 1) (acc ++ [nm0])).1 := rfl
    rw [List.cons_append, hfst,
      ih (idx + 1) (acc ++ [nm0]) (fun x hx => hpre x (List.mem_cons_of_mem _ hx)) nm e post]
    simp

theorem add_directory_mirror (total : Nat) :
    ∀ (items : List FSItem) (dp ap : String) (st : AddSt),
    addResP (add_directory total items dp ap st)
      = (addM total items dp ap st.added st.fidx).1
    ∧ (AllOk st.chan →
        (addChan (add_directory total items dp ap st)).tr
          = st.chan.tr ++ (addM total items dp ap st.added st.fidx).2
        ∧ AllOk (addChan (add_directory total items dp ap st))) := by
  intro items dp ap st
  induction items, dp, ap, st using add_directory.induct total with
  | case1 dp ap st =>
    simp only [add_directory, addM, addResP, addChan]
    exact ⟨trivial, fun h => ⟨by simp, h⟩⟩
  | case2 name ch rest dp ap st e hE ihch =>
    obtain ⟨ih1, ih2⟩ := ihch
    rw [hE] at ih1 ih2
    simp only [addResP, addChan] at ih1 ih2
    rcases hM : addM total ch (pjoin dp name) (pjoin ap name) st.added st.fidx with ⟨mres, mL⟩
    rw [hM] at ih1 ih2
    simp only at ih1 ih2
    subst ih1
    simp only [add_directory, addM, hE, hM]
    exact ⟨rfl, fun h => ⟨(ih2 h).1, (ih2 h).2⟩⟩
  | case3 name ch rest dp ap st st' hE ihch ihrest =>
    obtain ⟨ih1, ih2⟩ := ihch
    obtain ⟨jh1, jh2⟩ := ihrest
    rw [hE] at ih1 ih2
    simp only [addResP, addChan] at ih1 ih2
    rcases hM : addM total ch (pjoin dp name) (pjoin ap name) st.added st.fidx with ⟨mres, mL⟩
    rw [hM] at ih1 ih2
    simp only at ih1 ih2
    subst ih1
    simp only [add_directory, addM, hE, hM]
    refine ⟨jh1, fun h => ?_⟩
    obtain ⟨h4, h5⟩ := ih2 h
    obtain ⟨h6, h7⟩ := jh2 h5
    refine ⟨?_, h7⟩
    show (addChan (add_directory total rest dp ap st')).tr
      = st.chan.tr ++ (mL ++ (addM total rest dp ap st'.added st'.fidx).2)
    rw [h6, h4, List.append_assoc]
  | case4 name rest dp ap st aPath added' fidx' c' ih =>
    have haP : aPath = pjoin ap name := rfl
    have hadd : added' = st.added ++ [aPath] := rfl
    have hfid : fidx' = st.fidx + 1 := rfl
    have hc : c' = (if fidx' % 5 == 0 || fidx' == total then
        write_progress st.chan (crSnap total fidx' aPath "in_progress" "") else st.chan) := rfl
    clear_value aPath added' fidx' c'
    subst haP; subst hadd; subst hfid; subst hc
    simp only at ih
    obtain ⟨ih1, ih2⟩ := ih
    simp only [add_directory, addM]
    cases hcond : ((st.fidx + 1) % 5 == 0 || st.fidx + 1 == total) with
    | true =>
      rw [hcond] at ih1
      rw [hcond] at ih2
      rw [if_pos rfl] at ih1
      rw [if_pos rfl] at ih2
      rw [if_pos rfl, if_pos rfl]
      refine ⟨ih1, fun h => ?_⟩
      obtain ⟨h4, h5⟩ := ih2 (write_progress_allOk h _)
      refine ⟨?_, h5⟩
      rw [h4, write_progress_tr h]
      simp
    | false =>
      rw [hcond] at ih1
      rw [hcond] at ih2
      rw [if_neg Bool.false_ne_true] at ih1
      rw [if_neg Bool.false_ne_true] at ih2
      rw [if_neg Bool.false_ne_true, if_neg Bool.false_ne_true]
      refine ⟨ih1, fun h => ?_⟩
      obtain ⟨h4, h5⟩ := ih2 h
      exact ⟨by rw [h4]; simp, h5⟩
  | case5 name rest dp ap st e =>
    simp only [add_directory, addM, addResP, addChan]
    refine ⟨trivial, fun h => ⟨?_, write_progress_allOk h _⟩⟩
    rw [write_progress_tr h]

theorem addM_spec (total : Nat) :
    ∀ (items : List FSItem) (dp ap : String) (added : List String) (fidx : Nat),
    (fidx ≤ exitF (addM total items dp ap added fidx).1
      ∧ exitF (addM total items dp ap added fidx).1 ≤ fidx + countFiles items)
    ∧ (∀ p, (addM total items dp ap added fidx).1 = .inr p →
        p.2 = fidx + countFiles items)
    ∧ (∀ s ∈ (addM total items dp ap added fidx).2,
        fidx ≤ s.processedFiles
        ∧ s.processedFiles ≤ exitF (addM total items dp ap added fidx).1)
    ∧ List.Sorted (· ≤ ·) (((addM total items dp ap added fidx).2).map (·.processedFiles))
    ∧ (match (addM total items dp ap added fidx).1 with
       | .inr _ => ∀ s ∈ (addM total items dp ap added fidx).2, s.status = "in_progress"
       | .inl _ => ∃ L f, (addM total items dp ap added fidx).2 = L ++ [f]
            ∧ (∀ s ∈ L, s.status = "in_progress") ∧ f.status = "failed"
            ∧ f.processedFiles = exitF (addM total items dp ap added fidx).1) := by
  intro items dp ap added fidx
  induction items, dp, ap, added, fidx using addM.induct total with
  | case1 dp ap added fidx =>
    have hstep : addM total [] dp ap added fidx = (.inr (added, fidx), []) := by
      simp [addM]
    rw [hstep]
    simp only [exitF, countFiles]
    refine ⟨⟨Nat.le_refl _, Nat.le_refl _⟩, ?_, by simp, by simp, by simp⟩
    intro p hp
    simp only [Sum.inr.injEq] at hp
    rw [← hp]
    simp
  | case2 name ch rest dp ap added fidx e L hE ihch =>
    rw [hE] at ihch
    simp only [exitF] at ihch
    obtain ⟨⟨b1, b2⟩, _, hmem, hsort, hstat⟩ := ihch
    have hstep : addM total (.dir name ch :: rest) dp ap added fidx = (.inl e, L) := by
      simp [addM, hE]
    rw [hstep]
    simp only [exitF, countFiles]
    refine ⟨⟨b1, by omega⟩, ?_, hmem, hsort, hstat⟩
    intro p hp
    simp at hp
  | case3 name ch rest dp ap added fidx a f L hE ihch ihrest =>
    rw [hE] at ihch
    simp only [exitF] at ihch
    obtain ⟨⟨b1, b2⟩, hinr, hmem, hsort, hstat⟩ := ihch
    have hf : f = fidx + countFiles ch := hinr (a, f) rfl
    rcases hR : addM total rest dp ap a f with ⟨rres, rL⟩
    rw [hR] at ihrest
    obtain ⟨⟨c1, c2⟩, jinr, jmem, jsort, jstat⟩ := ihrest
    simp only at c1 c2 jinr jmem jsort jstat
    have hstep : addM total (.dir name ch :: rest) dp ap added fidx
        = (rres, L ++ rL) := by
      simp [addM, hE, hR]
    rw [hstep]
    simp only [countFiles]
    refine ⟨⟨by omega, by omega⟩, ?_, ?_, ?_, ?_⟩
    · intro p hp
      have := jinr p hp
      omega
    · intro s hs
      rcases List.mem_append.mp hs with hs | hs
      · obtain ⟨d1, d2⟩ := hmem s hs
        exact ⟨d1, by omega⟩
      · obtain ⟨d1, d2⟩ := jmem s hs
        exact ⟨by omega, d2⟩
    · simp only [List.map_append]
      refine List.pairwise_append.mpr ⟨hsort, jsort, ?_⟩
      intro x hx y hy
      obtain ⟨s, hs, hxe⟩ := List.mem_map.mp hx
      obtain ⟨t, ht, hye⟩ := List.mem_map.mp hy
      subst hxe; subst hye
      have d2 := (hmem s hs).2
      have e1 := (jmem t ht).1
      omega
    · revert jstat
      cases rres with
      | inr p =>
        intro jstat s hs
        rcases List.mem_append.mp hs with hs | hs
        · exact hstat s hs
        · exact jstat s hs
      | inl q =>
        intro jstat
        obtain ⟨L0, fl, hLf, hL0, hfl, hpf⟩ := jstat
        refine ⟨L ++ L0, fl, by rw [hLf, List.append_assoc], ?_, hfl, hpf⟩
        intro s hs
        rcases List.mem_append.mp hs with hs | hs
        · exact hstat s hs
        · exact hL0 s hs
  | case4 name rest dp ap added fidx ihrest =>
    rcases hR : addM total rest dp ap (added ++ [pjoin ap name]) (fidx + 1) with ⟨rres, rL⟩
    rw [hR] at ihrest
    obtain ⟨⟨c1, c2⟩, jinr, jmem, jsort, jstat⟩ := ihrest
    simp only at c1 c2 jinr jmem jsort jstat
    have hstep : addM total (.file name none :: rest) dp ap added fidx
        = (rres, (if (fidx + 1) % 5 == 0 || fidx + 1 == total then
            [crSnap total (fidx + 1) (pjoin ap name) "in_progress" ""] else []) ++ rL) := by
      simp [addM, hR]
    rw [hstep]
    simp only [countFiles]
    have hpf : ∀ s ∈ (if (fidx + 1) % 5 == 0 || fidx + 1 == total then
        [crSnap total (fidx + 1) (pjoin ap name) "in_progress" ""] else []),
        s.processedFiles = fidx + 1 ∧ s.status = "in_progress" := by
      cases hcond : ((fidx + 1) % 5 == 0 || fidx + 1 == total) with
      | true =>
        intro s hs
        rw [if_pos rfl] at hs
        simp only [List.mem_singleton] at hs
        subst hs
        exact ⟨rfl, rfl⟩
      | false =>
        intro s hs
        rw [if_neg Bool.false_ne_true] at hs
        simp at hs
    refine ⟨⟨by omega, by omega⟩, ?_, ?_, ?_, ?_⟩
    · intro p hp
      have := jinr p hp
      omega
    · intro s hs
      rcases List.mem_append.mp hs with hs | hs
      · obtain ⟨d1, _⟩ := hpf s hs
        rw [d1]
        exact ⟨by omega, by omega⟩
      · obtain ⟨d1, d2⟩ := jmem s hs
        exact ⟨by omega, d2⟩
    · simp only [List.map_append]
      refine List.pairwise_append.mpr ⟨?_, jsort, ?_⟩
      · cases hcond : ((fidx + 1) % 5 == 0 || fidx + 1 == total) with
        | true => simp
        | false => simp
      · intro x hx y hy
        obtain ⟨s, hs, hxe⟩ := List.mem_map.mp hx
        obtain ⟨t, ht, hye⟩ := List.mem_map.mp hy
        subst hxe; subst hye
        rw [(hpf s hs).1]
        exact (jmem t ht).1
    · revert jstat
      cases rres with
      | inr p =>
        intro jstat s hs
        rcases List.mem_append.mp hs with hs | hs
        · exact (hpf s hs).2
        · exact jstat s hs
      | inl q =>
        intro jstat
        obtain ⟨L0, fl, hLf, hL0, hfl, hpfl⟩ := jstat
        refine ⟨(if (fidx + 1) % 5 == 0 || fidx + 1 == total then
            [crSnap total (fidx + 1) (pjoin ap name) "in_progress" ""] else []) ++ L0, fl,
          by rw [hLf, List.append_assoc], ?_, hfl, hpfl⟩
        intro s hs
        rcases List.mem_append.mp hs with hs | hs
        · exact (hpf s hs).2
        · exact hL0 s hs
  | case5 name rest dp ap added fidx e =>
    have hstep : addM total (.file name (some e) :: rest) dp ap added fidx
        = (.inl ("Error adding " ++ pjoin dp name ++ ": " ++ e, added, fidx),
            [crSnap total fidx (pjoin ap name) "failed"
              ("Error adding " ++ pjoin dp name ++ ": " ++ e)]) := by
      simp [addM]
    rw [hstep]
    simp only [exitF, countFiles]
    refine ⟨⟨Nat.le_refl _, by omega⟩, ?_, ?_, by simp, ?_⟩
    · intro p hp
      simp at hp
    · intro s hs
      simp only [List.mem_singleton] at hs
      subst hs
      exact ⟨Nat.le_refl _, Nat.le_refl _⟩
    · exact ⟨[], _, rfl, by simp, rfl, rfl⟩

theorem addM_zero (total : Nat) :
    ∀ (items : List FSItem) (dp ap : String) (added : List String) (fidx : Nat),
    countFiles items = 0 →
    addM total items dp ap added fidx = (.inr (added, fidx), []) := by
  intro items dp ap added fidx
  induction items, dp, ap, added, fidx using addM.induct total with
  | case1 dp ap added fidx => intro _; simp [addM]
  | case2 name ch rest dp ap added fidx e L hE ihch =>
    intro h0
    simp only [countFiles] at h0
    have : countFiles ch = 0 := by omega
    rw [ihch this] at hE
    simp at hE
  | case3 name ch rest dp ap added fidx a f L hE ihch ihrest =>
    intro h0
    simp only [countFiles] at h0
    have hc : countFiles ch = 0 := by omega
    have hr : countFiles rest = 0 := by omega
    rw [ihch hc] at hE
    simp only [Prod.mk.injEq, Sum.inr.injEq] at hE
    obtain ⟨⟨ha1, ha2⟩, ha3⟩ := hE
    subst ha1; subst ha2; subst ha3
    have hstep : addM total (.dir name ch :: rest) dp ap added fidx
        = ((addM total rest dp ap added fidx).1,
            [] ++ (addM total rest dp ap added fidx).2) := by
      simp [addM, ihch hc]
    rw [hstep, ihrest hr]
    simp
  | case4 name rest dp ap added fidx ihrest =>
    intro h0
    simp only [countFiles] at h0
    omega
  | case5 name rest dp ap added fidx e =>
    intro h0
    simp only [countFiles] at h0
    omega

theorem create_rpa_mirror (env : CreateEnv) (sd : String) (c : Chan) :
    (create_rpa env sd c).result = createResM env sd
    ∧ (create_rpa env sd c).saveInvoked = (createSaveM env sd).1
    ∧ (create_rpa env sd c).saved = (createSaveM env sd).2
    ∧ (AllOk c → (create_rpa env sd c).chan.tr = c.tr ++ createTrM env sd) := by
  obtain ⟨tree, newErr, saveErr⟩ := env
  simp only [create_rpa, createResM, createSaveM, createTrM]
  cases htot : (countFiles tree == 0) with
  | true =>
    rw [if_pos rfl, if_pos rfl, if_pos rfl, if_pos rfl]
    refine ⟨rfl, rfl, rfl, fun h => ?_⟩
    rw [write_progress_tr h]
  | false =>
    rw [if_neg Bool.false_ne_true, if_neg Bool.false_ne_true,
      if_neg Bool.false_ne_true, if_neg Bool.false_ne_true]
    cases newErr with
    | some e =>
      refine ⟨rfl, rfl, rfl, fun h => ?_⟩
      rw [write_progress_tr (write_progress_allOk h _), write_progress_tr h]
      simp
    | none =>
      obtain ⟨m1, m2⟩ := add_directory_mirror (countFiles tree) tree sd ""
        ⟨[], 0, write_progress c
          (crSnap (countFiles tree) 0 "Initializing archive..." "in_progress" "")⟩
      simp only at m1 m2
      rcases hA : add_directory (countFiles tree) tree sd ""
          ⟨[], 0, write_progress c
            (crSnap (countFiles tree) 0 "Initializing archive..." "in_progress" "")⟩
        with er | st
      · rw [hA] at m1 m2
        simp only [addResP, addChan] at m1 m2
        rw [← m1]
        refine ⟨rfl, rfl, rfl, fun h => ?_⟩
        obtain ⟨h4, h5⟩ := m2 (write_progress_allOk h _)
        rw [write_progress_tr h5, h4, write_progress_tr h]
        simp
      · rw [hA] at m1 m2
        simp only [addResP, addChan] at m1 m2
        rw [← m1]
        cases saveErr with
        | some e =>
          refine ⟨rfl, rfl, rfl, fun h => ?_⟩
          obtain ⟨h4, h5⟩ := m2 (write_progress_allOk h _)
          rw [write_progress_tr h5, h4, write_progress_tr h]
          simp
        | none =>
          refine ⟨rfl, rfl, rfl, fun h => ?_⟩
          obtain ⟨h4, h5⟩ := m2 (write_progress_allOk h _)
          rw [write_progress_tr h5, h4, write_progress_tr h]
          simp

theorem decompLoop_mirror (total : Nat) (items : List DFile) :
    ∀ (idx : Nat) (st : Nat × Nat × Nat) (c : Chan),
    (decompLoop total items idx st c).1 = (dcM total items idx st).1
    ∧ (AllOk c →
        (decompLoop total items idx st c).2.tr = c.tr ++ (dcM total items idx st).2
        ∧ AllOk (decompLoop total items idx st c).2) := by
  induction items with
  | nil =>
    intro idx st c
    exact ⟨rfl, fun h => ⟨by simp [decompLoop, dcM], h⟩⟩
  | cons f rest ih =>
    intro idx st c
    obtain ⟨s, k, fl⟩ := st
    cases hcond : (idx % 5 == 0 || idx == total - 1) with
    | true =>
      simp only [decompLoop, dcM, hcond, if_true]
      obtain ⟨h1, h2⟩ := ih (idx + 1)
        (match f.outcome with
         | .ok => (s + 1, k, fl)
         | .skip => (s, k + 1, fl)
         | .other => (s, k, fl + 1)
         | .exn _ => (s, k, fl + 1))
        (write_progress c (dcSnap total idx f.name "in_progress" ""))
      refine ⟨h1, fun h => ?_⟩
      obtain ⟨h4, h5⟩ := h2 (write_progress_allOk h _)
      refine ⟨?_, h5⟩
      rw [h4, write_progress_tr h]
      simp
    | false =>
      simp only [decompLoop, dcM, hcond, if_false]
      exact ih (idx + 1) _ c

theorem dcM_tr (total : Nat) (items : List DFile) :
    ∀ (idx : Nat) (st : Nat × Nat × Nat),
    (dcM total items idx st).2 = decompEmitsFrom total idx (items.map (·.name)) := by
  induction items with
  | nil => intro idx st; rfl
  | cons f rest ih =>
    intro idx st
    obtain ⟨s, k, fl⟩ := st
    show (if idx % 5 == 0 || idx == total - 1 then
        [dcSnap total idx f.name "in_progress" ""] else [])
      ++ (dcM total rest (idx + 1) _).2 = _
    rw [ih]
    rfl

theorem dcM_counts (total : Nat) (items : List DFile) :
    ∀ (idx : Nat) (s k fl : Nat),
    (dcM total items idx (s, k, fl)).1
      = (s + countOk items, k + countSkip items, fl + countFail items) := by
  induction items with
  | nil => intro idx s k fl; simp [dcM, countOk, countSkip, countFail]
  | cons f rest ih =>
    intro idx s k fl
    cases ho : f.outcome with
    | ok =>
      have hexp : (dcM total (f :: rest) idx (s, k, fl)).1
          = (dcM total rest (idx + 1) (s + 1, k, fl)).1 := by
        show (dcM total rest (idx + 1)
          (match f.outcome with
           | .ok => (s + 1, k, fl)
           | .skip => (s, k + 1, fl)
           | .other => (s, k, fl + 1)
           | .exn _ => (s, k, fl + 1))).1 = _
        rw [ho]
      rw [hexp, ih]
      simp only [countOk, countSkip, countFail, List.countP_cons, ho, isFailOutcome]
      simp
      omega
    | skip =>
      have hexp : (dcM total (f :: rest) idx (s, k, fl)).1
          = (dcM total rest (idx + 1) (s, k + 1, fl)).1 := by
        show (dcM total rest (idx + 1)
          (match f.outcome with
           | .ok => (s + 1, k, fl)
           | .skip => (s, k + 1, fl)
           | .other => (s, k, fl + 1)
           | .exn _ => (s, k, fl + 1))).1 = _
        rw [ho]
      rw [hexp, ih]
      simp only [countOk, countSkip, countFail, List.countP_cons, ho, isFailOutcome]
      simp
      omega
    | other =>
      have hexp : (dcM total (f :: rest) idx (s, k, fl)).1
          = (dcM total rest (idx + 1) (s, k, fl + 1)).1 := by
        show (dcM total rest (idx + 1)
          (match f.outcome with
           | .ok => (s + 1, k, fl)
           | .skip => (s, k + 1, fl)
           | .other => (s, k, fl + 1)
           | .exn _ => (s, k, fl + 1))).1 = _
        rw [ho]
      rw [hexp, ih]
      simp only [countOk, countSkip, countFail, List.countP_cons, ho, isFailOutcome]
      simp
      omega
    | exn e =>
      have hexp : (dcM total (f :: rest) idx (s, k, fl)).1
          = (dcM total rest (idx + 1) (s, k, fl + 1)).1 := by
        show (dcM total rest (idx + 1)
          (match f.outcome with
           | .ok => (s + 1, k, fl)
           | .skip => (s, k + 1, fl)
           | .other => (s, k, fl + 1)
           | .exn _ => (s, k, fl + 1))).1 = _
        rw [ho]
      rw [hexp, ih]
      simp only [countOk, countSkip, countFail, List.countP_cons, ho, isFailOutcome]
      simp
      omega

theorem decompEmitsFrom_spec (total : Nat) (names : List String) :
    ∀ (idx : Nat), idx + names.length ≤ total →
    (∀ x ∈ decompEmitsFrom total idx names,
        x.status = "in_progress" ∧ idx ≤ x.processedFiles ∧ x.processedFiles ≤ total)
    ∧ List.Sorted (· ≤ ·) ((decompEmitsFrom total idx names).map (·.processedFiles)) := by
  induction names with
  | nil =>
    intro idx h
    exact ⟨by simp [decompEmitsFrom], by simp [decompEmitsFrom]⟩
  | cons nm rest ih =>
    intro idx h
    have h' : (idx + 1) + rest.length ≤ total := by
      simp only [List.length_cons] at h; omega
    obtain ⟨j1, j2⟩ := ih (idx + 1) h'
    have hexp : decompEmitsFrom total idx (nm :: rest)
        = (if idx % 5 == 0 || idx == total - 1 then
            [dcSnap total idx nm "in_progress" ""] else [])
          ++ decompEmitsFrom total (idx + 1) rest := rfl
    rw [hexp]
    constructor
    · intro x hx
      rcases List.mem_append.mp hx with hx | hx
      · cases hcond : (idx % 5 == 0 || idx == total - 1) with
        | true =>
          rw [hcond, if_pos rfl] at hx
          simp only [List.mem_singleton] at hx
          subst hx
          refine ⟨rfl, Nat.le_refl _, ?_⟩
          show idx ≤ total
          simp only [List.length_cons] at h
          omega
        | false =>
          rw [hcond, if_neg Bool.false_ne_true] at hx
          simp at hx
      · obtain ⟨d1, d2, d3⟩ := j1 x hx
        exact ⟨d1, by omega, d3⟩
    · simp only [List.map_append]
      refine List.pairwise_append.mpr ⟨?_, j2, ?_⟩
      · cases hcond : (idx % 5 == 0 || idx == total - 1) with
        | true => simp
        | false => simp
      · intro a ha b hb
        obtain ⟨x, hx, hax⟩ := List.mem_map.mp ha
        obtain ⟨y, hy, hby⟩ := List.mem_map.mp hb
        subst hax; subst hby
        cases hcond : (idx % 5 == 0 || idx == total - 1) with
        | true =>
          rw [hcond, if_pos rfl] at hx
          simp only [List.mem_singleton] at hx
          subst hx
          have := (j1 y hy).2.1
          show idx ≤ y.processedFiles
          omega
        | false =>
          rw [hcond, if_neg Bool.false_ne_true] at hx
          simp at hx

theorem decompile_directory_mirror (env : DecompEnv) (c : Chan) :
    (decompile_directory env c).result = decompResM env
    ∧ (AllOk c → (decompile_directory env c).chan.tr = c.tr ++ decompTrM env) := by
  obtain ⟨sd, de, files⟩ := env
  simp only [decompile_directory, decompResM, decompTrM]
  by_cases hsd : sd = ""
  · rw [if_pos hsd, if_pos hsd, if_pos hsd]
    refine ⟨rfl, fun h => ?_⟩
    rw [write_progress_tr h]
  · rw [if_neg hsd, if_neg hsd, if_neg hsd]
    cases de with
    | false =>
      simp only [Bool.not_false, if_true]
      refine ⟨trivial, fun h => ?_⟩
      rw [write_progress_tr h]
    | true =>
      simp only [Bool.not_true, Bool.false_eq_true, if_false]
      cases htot : ((matchedFiles files).length == 0) with
      | true =>
        rw [if_pos rfl, if_pos rfl, if_pos rfl]
        refine ⟨rfl, fun h => ?_⟩
        rw [write_progress_tr h]
      | false =>
        rw [if_neg Bool.false_ne_true, if_neg Bool.false_ne_true,
          if_neg Bool.false_ne_true]
        obtain ⟨m1, m2⟩ := decompLoop_mirror (matchedFiles files).length
          (matchedFiles files) 0 (0, 0, 0)
          (write_progress c
            (dcSnap (matchedFiles files).length 0 "Scanning files..." "in_progress" ""))
        rcases hD : decompLoop (matchedFiles files).length (matchedFiles files) 0 (0, 0, 0)
            (write_progress c
              (dcSnap (matchedFiles files).length 0 "Scanning files..." "in_progress" ""))
          with ⟨⟨s, k, fl⟩, c2⟩
        rw [hD] at m1 m2
        simp only at m1 m2
        refine ⟨?_, fun h => ?_⟩
        · rw [m1]
        · obtain ⟨h4, h5⟩ := m2 (write_progress_allOk h _)
          show (write_progress c2 (dcSnap (matchedFiles files).length
            (matchedFiles files).length "Complete" "completed" "")).tr = _
          rw [write_progress_tr h5, h4, write_progress_tr h]
          simp

theorem allOk_chOn : AllOk chOn := ⟨rfl, fun _ => rfl⟩

theorem filter_terminal_nil {L : List Snapshot}
    (h : ∀ s ∈ L, s.status = "in_progress") :
    L.filter (fun s => isTerminal s) = [] := by
  induction L with
  | nil => rfl
  | cons x xs ih =>
    have hx : isTerminal x = false :=
      isTerminal_in_progress (h x (List.mem_cons_self _ _))
    simp [List.filter_cons, hx, ih (fun s hs => h s (List.mem_cons_of_mem _ hs))]

theorem counts_sum (l : List DFile) :
    countOk l + countSkip l + countFail l = l.length := by
  induction l with
  | nil => simp [countOk, countSkip, countFail]
  | cons f rest ih =>
    cases ho : f.outcome <;>
      simp [countOk, countSkip, countFail, List.countP_cons, ho, isFailOutcome] at ih ⊢ <;>
      omega

/-- Claim C4 (confirmed): if extracting entry k fails while all earlier
entries succeed, `extract_rpa` returns `success=false` with a message
naming the failing entry and its cause, and the `files` payload lists
exactly the k−1 entries written before the failure, in processing
order; entries after k contribute nothing to the result (the result is
the same for every suffix `post`). -/

theorem c4_theorem (pre : List ExtractItem) (nm e : String)
    (post : List ExtractItem) (c : Chan)
    (hpre : ∀ it ∈ pre, it.outcome = none) :
    (extract_rpa ⟨.ok (pre ++ ⟨nm, some e⟩ :: post), none⟩ c).result
      = ⟨false, "Error extracting " ++ nm ++ ": " ++ e, pre.map (·.filename)⟩
    ∧ (extract_rpa ⟨.ok (pre ++ ⟨nm, some e⟩ :: post), none⟩ c).result.files.length
      = pre.length := by
  have hm := (extract_rpa_mirror ⟨.ok (pre ++ ⟨nm, some e⟩ :: post), none⟩ c).1
  have hf := exM_failAt (pre ++ ⟨nm, some e⟩ :: post).length pre 0 [] hpre nm e post
  constructor
  · rw [hm]
    simp only [extractResM]
    rw [hf]
    simp
  · rw [hm]
    simp only [extractResM]
    rw [hf]
    simp

/-- Witness for C4: a three-entry archive where entry 2 fails. -/

theorem c4_witness :
    (extract_rpa ⟨.ok ([⟨"a", none⟩] ++ ⟨"b", some "disk full"⟩ :: [⟨"c", none⟩]),
        none⟩ chOn).result
      = ⟨false, "Error extracting b: disk full", ["a"]⟩ := by
  have h := c4_theorem [⟨"a", none⟩] "b" "disk full" [⟨"c", none⟩] chOn (by decide)
  rw [h.1]
  decide

/-- Claim C5 (confirmed): for a run of `decompile_directory` that passes
validation and finds at least one matched file, each per-file outcome
bumps exactly one counter — an exception from the decompiler counts as
failed — processing continues to the end, and the overall result is
`success=true` with the aggregated counts, however many files failed. -/

theorem c5_theorem (env : DecompEnv) (c : Chan)
    (h1 : env.sourceDir ≠ "") (h2 : env.dirExists = true)
    (h3 : (matchedFiles env.files).length ≠ 0) :
    (decompile_directory env c).result.success = true
    ∧ (decompile_directory env c).result.stats
      = ⟨(matchedFiles env.files).length, countOk (matchedFiles env.files),
         countSkip (matchedFiles env.files), countFail (matchedFiles env.files)⟩ := by
  have hm := (decompile_directory_mirror env c).1
  rw [hm]
  simp only [decompResM]
  rw [if_neg h1, h2]
  simp only [Bool.not_true, Bool.false_eq_true, if_false]
  have h0 : ((matchedFiles env.files).length == 0) = false := by simpa using h3
  rw [h0]
  simp only [Bool.false_eq_true, if_false]
  rw [dcM_counts (matchedFiles env.files).length (matchedFiles env.files) 0 0 0 0]
  simp

/-- Witness for C5: four matched files with outcomes ok, exception,
skip, and an unknown context state; the run still succeeds with
counts (1 successful, 1 skipped, 2 failed). -/

theorem c5_witness :
    (decompile_directory envDecomp5 chOn).result.success = true
    ∧ (decompile_directory envDecomp5 chOn).result.stats = ⟨4, 1, 1, 2⟩ := by
  have h := c5_theorem envDecomp5 chOn (by decide) rfl (by decide)
  refine ⟨h.1, ?_⟩
  rw [h.2]
  decide

/-- Claim C7 (counterexample): in an all-success extract run over six
entries, the 5th processed item (1-indexed) emits no snapshot: no
snapshot in the whole trace has `processedFiles = 5`, although six
entries were processed.  The code emits at 0-based indices divisible
by 5 (items 1, 6, 11, …), not at items 5, 10, 15, …. -/

theorem c7_counterexample :
    (extract_rpa envSix chOn).result.files.length = 6
    ∧ ((extract_rpa envSix chOn).chan.tr).filter
        (fun s => s.processedFiles == 5) = [] := by
  constructor <;> decide

/-- Claim C7 (amended): during extract (when every entry extracts) and
decompile, a snapshot is emitted for the items whose 0-based index is a
multiple of 5 — the 1st, 6th, 11th, … — and unconditionally for the
final item; extract writes it after the item with
`processedFiles = index + 1`, decompile before the item with
`processedFiles = index` and the item's base name as `currentFile`. -/

theorem c7_amended :
    (∀ names : List String,
      (extract_rpa ⟨.ok (mkOkItems names), none⟩ chOn).chan.tr
        = exSnap names.length 0 "Loading archive..." "in_progress" ""
          :: (extractEmitsFrom names.length 0 names
            ++ [exSnap names.length names.length "Complete" "completed" ""]))
    ∧ (∀ env : DecompEnv, env.sourceDir ≠ "" → env.dirExists = true →
        (matchedFiles env.files).length ≠ 0 →
        (decompile_directory env chOn).chan.tr
          = dcSnap (matchedFiles env.files).length 0 "Scanning files..." "in_progress" ""
            :: (decompEmitsFrom (matchedFiles env.files).length 0
                  ((matchedFiles env.files).map (·.name))
              ++ [dcSnap (matchedFiles env.files).length (matchedFiles env.files).length
                  "Complete" "completed" ""])) := by
  constructor
  · intro names
    have hm := (extract_rpa_mirror ⟨.ok (mkOkItems names), none⟩ chOn).2 allOk_chOn
    rw [hm]
    have hlen : (mkOkItems names).length = names.length := by simp [mkOkItems]
    have h1 := exM_allOk (mkOkItems names).length names 0 []
    have h11 : (exM (mkOkItems names).length (mkOkItems names) 0 []).1.1 = none := by
      rw [h1.1]
    simp only [extractTrM, h11, h1.2]
    rw [hlen]
    simp [chOn]
  · intro env h1 h2 h3
    have hm := (decompile_directory_mirror env chOn).2 allOk_chOn
    rw [hm]
    have h0 : ((matchedFiles env.files).length == 0) = false := by simpa using h3
    simp only [decompTrM, chOn]
    rw [if_neg h1, h2]
    simp only [Bool.not_true, Bool.false_eq_true, if_false]
    rw [h0]
    simp only [Bool.false_eq_true, if_false]
    rw [dcM_tr]
    simp

/-- Witness for C7 at a one-entry archive and the concrete decompile
run with four matched files. -/

theorem c7_witness :
    (extract_rpa ⟨.ok (mkOkItems ["x"]), none⟩ chOn).chan.tr
      = exSnap 1 0 "Loading archive..." "in_progress" ""
        :: (extractEmitsFrom 1 0 ["x"] ++ [exSnap 1 1 "Complete" "completed" ""])
    ∧ (decompile_directory envDecomp5 chOn).chan.tr
      = dcSnap 4 0 "Scanning files..." "in_progress" ""
        :: (decompEmitsFrom 4 0 ["a.rpyc", "b.rpyc", "c.RPYC", "d.rpymc"]
          ++ [dcSnap 4 4 "Complete" "completed" ""]) := by
  constructor
  · have h := c7_amended.1 ["x"]
    rw [h]
    decide
  · have h := c7_amended.2 envDecomp5 (by decide) rfl (by decide)
    rw [h]
    decide

/-- Claim C9 (confirmed): whenever `decompile_directory` returns
`success=true`, the returned stats satisfy
success + skipped + failed = total, and total is the number of
compiled-script files the initial scan discovered. -/

theorem c9_theorem (env : DecompEnv) (c : Chan)
    (h : (decompile_directory env c).result.success = true) :
    (decompile_directory env c).result.stats.success
      + (decompile_directory env c).result.stats.skipped
      + (decompile_directory env c).result.stats.failed
      = (decompile_directory env c).result.stats.total
    ∧ (decompile_directory env c).result.stats.total
      = (matchedFiles env.files).length := by
  have hm := (decompile_directory_mirror env c).1
  rw [hm] at h ⊢
  revert h
  simp only [decompResM]
  by_cases h1 : env.sourceDir = ""
  · rw [if_pos h1]
    intro h
    simp at h
  · rw [if_neg h1]
    cases hde : env.dirExists with
    | false =>
      simp only [Bool.not_false, if_true]
      intro h
      simp at h
    | true =>
      simp only [Bool.not_true, Bool.false_eq_true, if_false]
      cases h0 : ((matchedFiles env.files).length == 0) with
      | true =>
        rw [if_pos rfl]
        intro h
        simp at h
      | false =>
        rw [if_neg Bool.false_ne_true]
        rw [dcM_counts (matchedFiles env.files).length (matchedFiles env.files) 0 0 0 0]
        intro _
        constructor
        · simp only
          have := counts_sum (matchedFiles env.files)
          omega
        · rfl

/-- Witness for C9 at the concrete decompile run: 1 + 1 + 2 = 4 files. -/

theorem c9_witness :
    (decompile_directory envDecomp5 chOn).result.stats.success
      + (decompile_directory envDecomp5 chOn).result.stats.skipped
      + (decompile_directory envDecomp5 chOn).result.stats.failed
      = (decompile_directory envDecomp5 chOn).result.stats.total := by
  exact (c9_theorem envDecomp5 chOn (by decide)).1

/-- Claim C10 (confirmed): extracting an archive with zero entries
succeeds: result `success=true`, empty files list, message reporting 0
extracted files, and the trace is the initial snapshot followed by a
completed terminal snapshot with `totalFiles = 0`, `processedFiles = 0`
— while `create_rpa` and `decompile_directory` return `success=false`
when zero items are found. -/

theorem c10_theorem :
    (extract_rpa ⟨.ok [], none⟩ chOn).result
      = ⟨true, "Successfully extracted 0 files", []⟩
    ∧ (extract_rpa ⟨.ok [], none⟩ chOn).chan.tr
      = [exSnap 0 0 "Loading archive..." "in_progress" "",
         exSnap 0 0 "Complete" "completed" ""]
    ∧ (∀ (env : CreateEnv) (sd : String) (c : Chan), countFiles env.tree = 0 →
        (create_rpa env sd c).result.success = false)
    ∧ (∀ (env : DecompEnv) (c : Chan), matchedFiles env.files = [] →
        (decompile_directory env c).result.success = false) := by
  refine ⟨by decide, by decide, ?_, ?_⟩
  · intro env sd c h0
    have hm := (create_rpa_mirror env sd c).1
    rw [hm]
    simp only [createResM]
    have hb : (countFiles env.tree == 0) = true := by simpa using h0
    rw [hb, if_pos rfl]
  · intro env c hM
    have hm := (decompile_directory_mirror env c).1
    rw [hm]
    simp only [decompResM]
    by_cases h1 : env.sourceDir = ""
    · rw [if_pos h1]
    · rw [if_neg h1]
      cases hde : env.dirExists with
      | false => simp
      | true => simp [hM]

/-- Witness for C10's create and decompile conjuncts: a fileless tree
and a directory whose only file does not match the extensions. -/

theorem c10_witness :
    (create_rpa envEmptyTree "src" chOff).result.success = false
    ∧ (decompile_directory ⟨"g", true, [⟨"g", "x.txt", .ok⟩]⟩ chOff).result.success
      = false := by
  constructor
  · exact c10_theorem.2.2.1 envEmptyTree "src" chOff (by simp [envEmptyTree, countFiles])
  · exact c10_theorem.2.2.2 ⟨"g", true, [⟨"g", "x.txt", .ok⟩]⟩ chOff (by decide)

/-- Claim C1 (counterexample): a create run whose second file fails to
read.  The walk had added "a" before raising, but the returned
result's files payload is empty — the top-level handler of `create_rpa`
returns `files=list()` and discards `added_files` — so the payload does
not equal the list of paths successfully added before the failure. -/

theorem c1_counterexample :
    (addM (countFiles envAddFail.tree) envAddFail.tree "src" "" [] 0).1
      = .inl ("Error adding src/b: Permission denied", ["a"], 1)
    ∧ (create_rpa envAddFail "src" chOff).result.success = false
    ∧ (create_rpa envAddFail "src" chOff).result.files = []
    ∧ (create_rpa envAddFail "src" chOff).result.files ≠ ["a"] := by
  have h1 : (addM (countFiles envAddFail.tree) envAddFail.tree "src" "" [] 0).1
      = .inl ("Error adding src/b: Permission denied", ["a"], 1) := by
    simp [envAddFail, countFiles, addM, pjoin]
  have hm := (create_rpa_mirror envAddFail "src" chOff).1
  have hres : (create_rpa envAddFail "src" chOff).result
      = ⟨false, "Error: Error adding src/b: Permission denied", []⟩ := by
    rw [hm]
    simp only [createResM]
    have htot : (countFiles envAddFail.tree == 0) = false := by
      simp [envAddFail, countFiles]
    rw [htot]
    simp only [Bool.false_eq_true, if_false]
    rw [h1]
    simp [envAddFail]
  refine ⟨h1, by rw [hres], by rw [hres], by rw [hres]; decide⟩

/-- Claim C1 (amended): for every run of create in which reading or
adding some file fails (the codec was created and the recursive walk
raises), the operation aborts without persisting any archive —
`archive.save` is never invoked — and the returned result has
success=false and a message carrying the per-file error, but an EMPTY
files payload: the top-level handler discards the list of paths added
before the failure instead of returning it. -/

theorem c1_amended (env : CreateEnv) (sd : String) (c : Chan)
    (m : String) (a : List String) (f : Nat)
    (hnew : env.newErr = none)
    (hfail : (addM (countFiles env.tree) env.tree sd "" [] 0).1 = .inl (m, a, f)) :
    (create_rpa env sd c).result = ⟨false, "Error: " ++ m, []⟩
    ∧ (create_rpa env sd c).saveInvoked = false
    ∧ (create_rpa env sd c).saved = none := by
  obtain ⟨h1, h2, h3, _⟩ := create_rpa_mirror env sd c
  rw [h1, h2, h3]
  have htot : (countFiles env.tree == 0) = false := by
    cases hco : (countFiles env.tree == 0) with
    | false => rfl
    | true =>
      have h0 : countFiles env.tree = 0 := by simpa using hco
      rw [addM_zero (countFiles env.tree) env.tree sd "" [] 0 h0] at hfail
      simp at hfail
  simp only [createResM, createSaveM, htot, Bool.false_eq_true, if_false, hnew]
  rw [hfail]
  exact ⟨rfl, rfl, rfl⟩

/-- Witness for C1 at the concrete failing run. -/

theorem c1_witness :
    (create_rpa envAddFail "src" chOff).result
      = ⟨false, "Error: " ++ "Error adding src/b: Permission denied", []⟩
    ∧ (create_rpa envAddFail "src" chOff).saveInvoked = false := by
  have h := c1_amended envAddFail "src" chOff "Error adding src/b: Permission denied"
    ["a"] 1 rfl (by simp [envAddFail, countFiles, addM, pjoin])
  exact ⟨h.1, h.2.1⟩

/-- Claim C3 (confirmed): for a source tree with zero files recursively
(a nonexistent directory walks the same way), create returns
`success=false` with the "No files found in source directory" message,
writes a single initial failed snapshot, and persists nothing; and
`archive.save` is invoked only in runs where the whole walk succeeded
(so the tree also had at least one file). -/

theorem c3_theorem :
    (∀ (env : CreateEnv) (sd : String) (c : Chan), countFiles env.tree = 0 →
      (create_rpa env sd c).result = ⟨false, "No files found in source directory", []⟩
      ∧ (create_rpa env sd c).saveInvoked = false
      ∧ (create_rpa env sd c).saved = none)
    ∧ (∀ (env : CreateEnv) (sd : String), countFiles env.tree = 0 →
      (create_rpa env sd chOn).chan.tr
        = [crSnap 0 0 "" "failed" "No files found in source directory"])
    ∧ (∀ (env : CreateEnv) (sd : String) (c : Chan),
      (create_rpa env sd c).saveInvoked = true →
        createWalkFails env sd = false ∧ countFiles env.tree ≠ 0) := by
  refine ⟨?_, ?_, ?_⟩
  · intro env sd c h0
    obtain ⟨h1, h2, h3, _⟩ := create_rpa_mirror env sd c
    rw [h1, h2, h3]
    have hb : (countFiles env.tree == 0) = true := by simpa using h0
    simp only [createResM, createSaveM]
    rw [hb, if_pos rfl, if_pos rfl]
    exact ⟨rfl, rfl, rfl⟩
  · intro env sd h0
    have h4 := (create_rpa_mirror env sd chOn).2.2.2 allOk_chOn
    rw [h4]
    have hb : (countFiles env.tree == 0) = true := by simpa using h0
    simp only [createTrM]
    rw [hb, if_pos rfl]
    simp [chOn]
  · intro env sd c hsave
    rw [(create_rpa_mirror env sd c).2.1] at hsave
    revert hsave
    simp only [createSaveM, createWalkFails]
    cases hco : (countFiles env.tree == 0) with
    | true =>
      rw [if_pos rfl]
      intro hsave
      simp at hsave
    | false =>
      rw [if_neg Bool.false_ne_true]
      cases hne : env.newErr with
      | some e =>
        intro hsave
        simp at hsave
      | none =>
        cases hM : (addM (countFiles env.tree) env.tree sd "" [] 0).1 with
        | inl q =>
          intro hsave
          simp at hsave
        | inr p =>
          intro _
          refine ⟨by simp, by simpa using hco⟩

/-- Witness for C3: a fileless tree, and a fully successful create run
showing the walk-fails flag is down when save is reached. -/

theorem c3_witness :
    (create_rpa envEmptyTree "src" chOff).result
      = ⟨false, "No files found in source directory", []⟩
    ∧ createWalkFails envCreateOk "src" = false := by
  constructor
  · exact (c3_theorem.1 envEmptyTree "src" chOff (by simp [envEmptyTree, countFiles])).1
  · refine (c3_theorem.2.2 envCreateOk "src" chOff ?_).1
    rw [(create_rpa_mirror envCreateOk "src" chOff).2.1]
    simp [createSaveM, envCreateOk, countFiles, addM, pjoin]

theorem extract_trace_props (env : ExtractEnv) :
    ((((extract_rpa env chOn).chan.tr).filter (fun s => isTerminal s)).length = 1
      ∧ ((extract_rpa env chOn).chan.tr).getLast?.map (fun s => isTerminal s) = some true)
    ∧ (List.Sorted (· ≤ ·) (((extract_rpa env chOn).chan.tr).map (·.processedFiles))
      ∧ ((extract_rpa env chOn).chan.tr).head?.map (·.processedFiles) = some 0
      ∧ ∀ s ∈ (extract_rpa env chOn).chan.tr, s.processedFiles ≤ extractTotal env) := by
  have hm := (extract_rpa_mirror env chOn).2 allOk_chOn
  rw [hm, show chOn.tr = [] from rfl, List.nil_append]
  obtain ⟨openRes, mkdirErr⟩ := env
  cases openRes with
  | error e =>
    refine ⟨⟨?_, ?_⟩, ?_, ?_, ?_⟩ <;> simp [extractTrM, exSnap, extractTotal, isTerminal]
  | ok files =>
    cases mkdirErr with
    | some e =>
      refine ⟨⟨?_, ?_⟩, ?_, ?_, ?_⟩ <;>
        simp [extractTrM, exSnap, extractTotal, isTerminal]
    | none =>
      obtain ⟨hb, hs, hst⟩ := exM_spec files.length files 0 [] (by simp)
      simp only [extractTrM]
      cases hres : (exM files.length files 0 []).1.1 with
      | none =>
        rw [hres] at hst
        refine ⟨⟨?_, ?_⟩, ?_, ?_, ?_⟩
        · simp only [List.filter_cons, List.filter_append]
          rw [filter_terminal_nil hst]
          simp [exSnap, isTerminal]
        · simp only []
          rw [show (exSnap files.length 0 "Loading archive..." "in_progress" ""
              :: ((exM files.length files 0 []).2
                ++ [exSnap files.length files.length "Complete" "completed" ""]))
            = (exSnap files.length 0 "Loading archive..." "in_progress" ""
                :: (exM files.length files 0 []).2)
              ++ [exSnap files.length files.length "Complete" "completed" ""] by simp]
          rw [List.getLast?_concat]
          simp [isTerminal, exSnap]
        · refine List.sorted_cons.mpr ⟨?_, ?_⟩
          · intro b _
            exact Nat.zero_le b
          · rw [List.map_append]
            refine List.pairwise_append.mpr ⟨hs, by simp, ?_⟩
            intro a ha b hbm
            obtain ⟨x, hx, hax⟩ := List.mem_map.mp ha
            subst hax
            simp only [List.map_cons, List.map_nil, List.mem_singleton] at hbm
            subst hbm
            exact (hb x hx).2
        · simp [exSnap]
        · intro s hsmem
          rcases List.mem_cons.mp hsmem with h | h
          · subst h
            simp [exSnap, extractTotal]
          · rcases List.mem_append.mp h with h | h
            · exact le_trans (hb s h).2 (by simp [extractTotal])
            · simp only [List.mem_singleton] at h
              subst h
              simp [exSnap, extractTotal]
      | some r =>
        rw [hres] at hst
        obtain ⟨L, fsnap, hLf, hL, hf⟩ := hst
        rw [hLf] at hb hs ⊢
        refine ⟨⟨?_, ?_⟩, ?_, ?_, ?_⟩
        · simp only [List.filter_cons, List.filter_append, List.append_nil]
          rw [filter_terminal_nil hL]
          simp [exSnap, isTerminal, hf]
        · simp only [List.append_nil]
          rw [show (exSnap files.length 0 "Loading archive..." "in_progress" ""
              :: (L ++ [fsnap]))
            = (exSnap files.length 0 "Loading archive..." "in_progress" "" :: L)
              ++ [fsnap] by simp]
          rw [List.getLast?_concat]
          simp [isTerminal, hf]
        · simp only [List.append_nil]
          refine List.sorted_cons.mpr ⟨?_, ?_⟩
          · intro b _
            exact Nat.zero_le b
          · exact hs
        · simp [exSnap]
        · intro s hsmem
          simp only [List.append_nil] at hsmem
          rcases List.mem_cons.mp hsmem with h | h
          · subst h
            simp [exSnap, extractTotal]
          · exact le_trans (hb s h).2 (by simp [extractTotal])

theorem decomp_trace_props (env : DecompEnv) :
    ((((decompile_directory env chOn).chan.tr).filter (fun s => isTerminal s)).length = 1
      ∧ ((decompile_directory env chOn).chan.tr).getLast?.map (fun s => isTerminal s)
        = some true)
    ∧ (List.Sorted (· ≤ ·) (((decompile_directory env chOn).chan.tr).map (·.processedFiles))
      ∧ ((decompile_directory env chOn).chan.tr).head?.map (·.processedFiles) = some 0
      ∧ ∀ s ∈ (decompile_directory env chOn).chan.tr,
          s.processedFiles ≤ (matchedFiles env.files).length) := by
  have hm := (decompile_directory_mirror env chOn).2 allOk_chOn
  rw [hm, show chOn.tr = [] from rfl, List.nil_append]
  simp only [decompTrM]
  by_cases h1 : env.sourceDir = ""
  · rw [if_pos h1]
    refine ⟨⟨?_, ?_⟩, ?_, ?_, ?_⟩ <;> simp [dcSnap, isTerminal]
  · rw [if_neg h1]
    cases hde : env.dirExists with
    | false =>
      simp only [Bool.not_false, if_true]
      refine ⟨⟨?_, ?_⟩, ?_, ?_, ?_⟩ <;> simp [dcSnap, isTerminal]
    | true =>
      simp only [Bool.not_true, Bool.false_eq_true, if_false]
      cases h0 : ((matchedFiles env.files).length == 0) with
      | true =>
        rw [if_pos rfl]
        refine ⟨⟨?_, ?_⟩, ?_, ?_, ?_⟩ <;> simp [dcSnap, isTerminal]
      | false =>
        rw [if_neg Bool.false_ne_true]
        rw [dcM_tr]
        obtain ⟨hmem, hsort⟩ := decompEmitsFrom_spec (matchedFiles env.files).length
          ((matchedFiles env.files).map (·.name)) 0 (by simp)
        have hstat : ∀ s ∈ decompEmitsFrom (matchedFiles env.files).length 0
            ((matchedFiles env.files).map (·.name)), s.status = "in_progress" :=
          fun s hs => (hmem s hs).1
        refine ⟨⟨?_, ?_⟩, ?_, ?_, ?_⟩
        · simp only [List.filter_cons, List.filter_append]
          rw [filter_terminal_nil hstat]
          simp [dcSnap, isTerminal]
        · rw [show (dcSnap (matchedFiles env.files).length 0
                "Scanning files..." "in_progress" ""
              :: (decompEmitsFrom (matchedFiles env.files).length 0
                    ((matchedFiles env.files).map (·.name))
                ++ [dcSnap (matchedFiles env.files).length (matchedFiles env.files).length
                    "Complete" "completed" ""]))
            = (dcSnap (matchedFiles env.files).length 0 "Scanning files..." "in_progress" ""
                :: decompEmitsFrom (matchedFiles env.files).length 0
                    ((matchedFiles env.files).map (·.name)))
              ++ [dcSnap (matchedFiles env.files).length (matchedFiles env.files).length
                  "Complete" "completed" ""] by simp]
          rw [List.getLast?_concat]
          simp [isTerminal, dcSnap]
        · refine List.sorted_cons.mpr ⟨fun b _ => Nat.zero_le b, ?_⟩
          rw [List.map_append]
          refine List.pairwise_append.mpr ⟨hsort, by simp, ?_⟩
          intro a ha b hbm
          obtain ⟨x, hx, hax⟩ := List.mem_map.mp ha
          subst hax
          simp only [List.map_cons, List.map_nil, List.mem_singleton] at hbm
          subst hbm
          exact (hmem x hx).2.2
        · simp [dcSnap]
        · intro s hsmem
          rcases List.mem_cons.mp hsmem with h | h
          · subst h
            simp [dcSnap]
          · rcases List.mem_append.mp h with h | h
            · exact (hmem s h).2.2
            · simp only [List.mem_singleton] at h
              subst h
              simp [dcSnap]

theorem create_trace_props (env : CreateEnv) (sd : String) :
    (createWalkFails env sd = false →
      (((create_rpa env sd chOn).chan.tr).filter (fun s => isTerminal s)).length = 1
      ∧ ((create_rpa env sd chOn).chan.tr).getLast?.map (fun s => isTerminal s) = some true)
    ∧ (createWalkFails env sd = true →
      ∃ t s1 s2, (create_rpa env sd chOn).chan.tr = t ++ [s1, s2]
        ∧ t.filter (fun s => isTerminal s) = []
        ∧ s1.status = "failed" ∧ s2.status = "failed")
    ∧ List.Sorted (· ≤ ·) (((create_rpa env sd chOn).chan.tr).map (·.processedFiles))
    ∧ ((create_rpa env sd chOn).chan.tr).head?.map (·.processedFiles) = some 0
    ∧ ∀ s ∈ (create_rpa env sd chOn).chan.tr, s.processedFiles ≤ countFiles env.tree := by
  have hm := (create_rpa_mirror env sd chOn).2.2.2 allOk_chOn
  rw [hm, show chOn.tr = [] from rfl, List.nil_append]
  obtain ⟨hbnd, hinr, hmem, hsort, hstat⟩ :=
    addM_spec (countFiles env.tree) env.tree sd "" [] 0
  simp only [createTrM, createWalkFails]
  cases hco : (countFiles env.tree == 0) with
  | true =>
    rw [if_pos rfl]
    have h0 : countFiles env.tree = 0 := by simpa using hco
    have hz := addM_zero (countFiles env.tree) env.tree sd "" [] 0 h0
    rw [hz]
    refine ⟨?_, ?_, ?_, ?_, ?_⟩
    · exact fun _ => ⟨by simp [crSnap, isTerminal], by simp [crSnap, isTerminal]⟩
    · intro hcontra
      simp at hcontra
    · simp
    · simp [crSnap]
    · simp [crSnap]
  | false =>
    rw [if_neg Bool.false_ne_true]
    cases hne : env.newErr with
    | some e =>
      refine ⟨?_, ?_, ?_, ?_, ?_⟩
      · exact fun _ => ⟨by simp [crSnap, isTerminal], by simp [crSnap, isTerminal]⟩
      · intro hcontra
        simp at hcontra
      · simp [crSnap]
      · simp [crSnap]
      · simp [crSnap]
    | none =>
      rcases hR1 : (addM (countFiles env.tree) env.tree sd "" [] 0).1 with q | p
      · obtain ⟨qm, qa, qf⟩ := q
        rw [hR1] at hbnd hmem hstat
        simp only [exitF] at hbnd hmem
        obtain ⟨L, fsnap, hLf, hL, hfst, hfpf⟩ := hstat
        rw [hLf]
        rw [hLf] at hmem hsort
        simp only [exitF] at hfpf
        refine ⟨?_, ?_, ?_, ?_, ?_⟩
        · intro hcontra
          simp at hcontra
        · intro _
          refine ⟨crSnap (countFiles env.tree) 0 "Initializing archive..." "in_progress" ""
              :: L, fsnap,
            crSnap (countFiles env.tree) qf "" "failed" ("Error: " ++ qm), by simp, ?_,
            hfst, rfl⟩
          simp only [List.filter_cons]
          rw [filter_terminal_nil hL]
          simp [crSnap, isTerminal]
        · refine List.sorted_cons.mpr ⟨fun b _ => Nat.zero_le b, ?_⟩
          rw [List.map_append]
          refine List.pairwise_append.mpr ⟨hsort, by simp, ?_⟩
          intro a ha b hbm
          obtain ⟨x, hx, hax⟩ := List.mem_map.mp ha
          subst hax
          simp only [List.map_cons, List.map_nil, List.mem_singleton] at hbm
          subst hbm
          have := (hmem x hx).2
          simp [crSnap]
          omega
        · simp [crSnap]
        · intro s hsmem
          rcases List.mem_cons.mp hsmem with h | h
          · subst h
            simp [crSnap]
          · rcases List.mem_append.mp h with h | h
            · have := (hmem s h).2
              omega
            · simp only [List.mem_singleton] at h
              subst h
              simp only [crSnap]
              omega
      · obtain ⟨pa, pfv⟩ := p
        rw [hR1] at hbnd hinr hmem hstat
        simp only [exitF] at hbnd hmem
        have hpf : pfv = countFiles env.tree := by
          have := hinr (pa, pfv) rfl
          simpa using this
        cases hse : env.saveErr with
        | some e =>
          refine ⟨?_, ?_, ?_, ?_, ?_⟩
          · intro _
            constructor
            · simp only [List.filter_cons, List.filter_append]
              rw [filter_terminal_nil hstat]
              simp [crSnap, isTerminal]
            · rw [show (crSnap (countFiles env.tree) 0
                    "Initializing archive..." "in_progress" ""
                  :: ((addM (countFiles env.tree) env.tree sd "" [] 0).2
                    ++ [crSnap (countFiles env.tree) pfv "" "failed" ("Error: " ++ e)]))
                = (crSnap (countFiles env.tree) 0 "Initializing archive..." "in_progress" ""
                    :: (addM (countFiles env.tree) env.tree sd "" [] 0).2)
                  ++ [crSnap (countFiles env.tree) pfv "" "failed" ("Error: " ++ e)]
                by simp]
              rw [List.getLast?_concat]
              simp [isTerminal, crSnap]
          · intro hcontra
            simp at hcontra
          · refine List.sorted_cons.mpr ⟨fun b _ => Nat.zero_le b, ?_⟩
            rw [List.map_append]
            refine List.pairwise_append.mpr ⟨hsort, by simp, ?_⟩
            intro a ha b hbm
            obtain ⟨x, hx, hax⟩ := List.mem_map.mp ha
            subst hax
            simp only [List.map_cons, List.map_nil, List.mem_singleton] at hbm
            subst hbm
            have := (hmem x hx).2
            simp [crSnap]
            omega
          · simp [crSnap]
          · intro s hsmem
            rcases List.mem_cons.mp hsmem with h | h
            · subst h
              simp [crSnap]
            · rcases List.mem_append.mp h with h | h
              · have := (hmem s h).2
                omega
              · simp only [List.mem_singleton] at h
                subst h
                simp only [crSnap]
                omega
        | none =>
          refine ⟨?_, ?_, ?_, ?_, ?_⟩
          · intro _
            constructor
            · simp only [List.filter_cons, List.filter_append]
              rw [filter_terminal_nil hstat]
              simp [crSnap, isTerminal]
            · rw [show (crSnap (countFiles env.tree) 0
                    "Initializing archive..." "in_progress" ""
                  :: ((addM (countFiles env.tree) env.tree sd "" [] 0).2
                    ++ [crSnap (countFiles env.tree) (countFiles env.tree)
                        "Complete" "completed" ""]))
                = (crSnap (countFiles env.tree) 0 "Initializing archive..." "in_progress" ""
                    :: (addM (countFiles env.tree) env.tree sd "" [] 0).2)
                  ++ [crSnap (countFiles env.tree) (countFiles env.tree)
                      "Complete" "completed" ""]
                by simp]
              rw [List.getLast?_concat]
              simp [isTerminal, crSnap]
          · intro hcontra
            simp at hcontra
          · refine List.sorted_cons.mpr ⟨fun b _ => Nat.zero_le b, ?_⟩
            rw [List.map_append]
            refine List.pairwise_append.mpr ⟨hsort, by simp, ?_⟩
            intro a ha b hbm
            obtain ⟨x, hx, hax⟩ := List.mem_map.mp ha
            subst hax
            simp only [List.map_cons, List.map_nil, List.mem_singleton] at hbm
            subst hbm
            have := (hmem x hx).2
            simp [crSnap]
            omega
          · simp [crSnap]
          · intro s hsmem
            rcases List.mem_cons.mp hsmem with h | h
            · subst h
              simp [crSnap]
            · rcases List.mem_append.mp h with h | h
              · have := (hmem s h).2
                omega
              · simp only [List.mem_singleton] at h
                subst h
                simp only [crSnap]
                omega

/-- Claim C2 (counterexample): on the create run whose second file
fails to add, a channel-attached trace contains TWO terminal
snapshots, not exactly one: the per-file handler writes a failed
snapshot and then raises, and the top-level handler writes a second
failed snapshot. -/

theorem c2_counterexample :
    (((create_rpa envAddFail "src" chOn).chan.tr).filter
      (fun s => isTerminal s)).length = 2 := by
  have h4 := (create_rpa_mirror envAddFail "src" chOn).2.2.2 allOk_chOn
  rw [h4, show chOn.tr = [] from rfl, List.nil_append]
  have htr : createTrM envAddFail "src"
      = [crSnap 2 0 "Initializing archive..." "in_progress" "",
         crSnap 2 1 "b" "failed" "Error adding src/b: Permission denied",
         crSnap 2 1 "" "failed" "Error: Error adding src/b: Permission denied"] := by
    simp [createTrM, envAddFail, countFiles, addM, pjoin]
  rw [htr]
  decide

/-- Claim C2 (amended): with a progress channel attached, extract and
decompile write exactly one terminal snapshot per run and it is the
last snapshot written; create does the same, except in runs where a
per-file read/add failure aborts the walk: there exactly two failed
snapshots are written — the per-file handler's and then the
top-level handler's — as the final two snapshots of the trace, with
every earlier snapshot non-terminal and nothing written after them. -/

theorem c2_amended :
    (∀ env : ExtractEnv,
      (((extract_rpa env chOn).chan.tr).filter (fun s => isTerminal s)).length = 1
      ∧ ((extract_rpa env chOn).chan.tr).getLast?.map (fun s => isTerminal s) = some true)
    ∧ (∀ env : DecompEnv,
      (((decompile_directory env chOn).chan.tr).filter (fun s => isTerminal s)).length = 1
      ∧ ((decompile_directory env chOn).chan.tr).getLast?.map (fun s => isTerminal s)
        = some true)
    ∧ (∀ (env : CreateEnv) (sd : String),
      (createWalkFails env sd = false →
        (((create_rpa env sd chOn).chan.tr).filter (fun s => isTerminal s)).length = 1
        ∧ ((create_rpa env sd chOn).chan.tr).getLast?.map (fun s => isTerminal s)
          = some true)
      ∧ (createWalkFails env sd = true →
        ∃ t s1 s2, (create_rpa env sd chOn).chan.tr = t ++ [s1, s2]
          ∧ t.filter (fun s => isTerminal s) = []
          ∧ s1.status = "failed" ∧ s2.status = "failed")) :=
  ⟨fun env => (extract_trace_props env).1,
   fun env => (decomp_trace_props env).1,
   fun env sd => ⟨(create_trace_props env sd).1, (create_trace_props env sd).2.1⟩⟩

/-- Witness for C2 at a fully successful create run and the concrete
walk-failure run. -/

theorem c2_witness :
    (((create_rpa envCreateOk "src" chOn).chan.tr).filter
        (fun s => isTerminal s)).length = 1
    ∧ ∃ t s1 s2, (create_rpa envAddFail "src" chOn).chan.tr = t ++ [s1, s2]
        ∧ t.filter (fun s => isTerminal s) = []
        ∧ s1.status = "failed" ∧ s2.status = "failed" := by
  constructor
  · exact ((c2_amended.2.2 envCreateOk "src").1
      (by simp [createWalkFails, envCreateOk, countFiles, addM, pjoin])).1
  · exact (c2_amended.2.2 envAddFail "src").2
      (by simp [createWalkFails, envAddFail, countFiles, addM, pjoin])

/-- Claim C6 (confirmed): with a progress channel attached, every run
of each operation writes a snapshot sequence whose `processedFiles`
starts at 0, never decreases from the initial snapshot through the
terminal one, and never exceeds the total count the operation computed
at its start (entry count, recursive file count, or matched-file
count). -/

theorem c6_theorem :
    (∀ env : ExtractEnv,
      List.Sorted (· ≤ ·) (((extract_rpa env chOn).chan.tr).map (·.processedFiles))
      ∧ ((extract_rpa env chOn).chan.tr).head?.map (·.processedFiles) = some 0
      ∧ ∀ s ∈ (extract_rpa env chOn).chan.tr, s.processedFiles ≤ extractTotal env)
    ∧ (∀ (env : CreateEnv) (sd : String),
      List.Sorted (· ≤ ·) (((create_rpa env sd chOn).chan.tr).map (·.processedFiles))
      ∧ ((create_rpa env sd chOn).chan.tr).head?.map (·.processedFiles) = some 0
      ∧ ∀ s ∈ (create_rpa env sd chOn).chan.tr, s.processedFiles ≤ countFiles env.tree)
    ∧ (∀ env : DecompEnv,
      List.Sorted (· ≤ ·) (((decompile_directory env chOn).chan.tr).map (·.processedFiles))
      ∧ ((decompile_directory env chOn).chan.tr).head?.map (·.processedFiles) = some 0
      ∧ ∀ s ∈ (decompile_directory env chOn).chan.tr,
          s.processedFiles ≤ (matchedFiles env.files).length) :=
  ⟨fun env => (extract_trace_props env).2,
   fun env sd => (create_trace_props env sd).2.2,
   fun env => (decomp_trace_props env).2⟩

/-- Claim C8 (confirmed): every public operation returns a result for
every input of the embedding (no exception escapes: the top-level
handlers convert faults into `success=false` results carrying the
fault's description), and the channel is write-only for the drivers:
the returned result — and for create also whether anything was saved —
is identical for any two channels, attached or not, writable or not;
channel-write failures are swallowed by `_write_progress`. -/

theorem c8_theorem :
    (∀ (env : ExtractEnv) (c c' : Chan),
      (extract_rpa env c).result = (extract_rpa env c').result)
    ∧ (∀ (env : CreateEnv) (sd : String) (c c' : Chan),
      (create_rpa env sd c).result = (create_rpa env sd c').result
      ∧ (create_rpa env sd c).saveInvoked = (create_rpa env sd c').saveInvoked
      ∧ (create_rpa env sd c).saved = (create_rpa env sd c').saved)
    ∧ (∀ (env : DecompEnv) (c c' : Chan),
      (decompile_directory env c).result = (decompile_directory env c').result)
    ∧ (∀ (e v : String),
      list_rpa_files ⟨.error e, v⟩ = ⟨false, "Error: " ++ e, [], "unknown"⟩)
    ∧ (∀ (env : ExtractEnv) (c : Chan) (e : String), env.openRes = .error e →
      (extract_rpa env c).result = ⟨false, "Error: " ++ e, []⟩)
    ∧ (∀ (env : CreateEnv) (sd : String) (c : Chan) (e : String),
      env.newErr = some e → countFiles env.tree ≠ 0 →
      (create_rpa env sd c).result = ⟨false, "Error: " ++ e, []⟩) := by
  refine ⟨?_, ?_, ?_, ?_, ?_, ?_⟩
  · intro env c c'
    rw [(extract_rpa_mirror env c).1, (extract_rpa_mirror env c').1]
  · intro env sd c c'
    obtain ⟨a1, a2, a3, _⟩ := create_rpa_mirror env sd c
    obtain ⟨b1, b2, b3, _⟩ := create_rpa_mirror env sd c'
    exact ⟨by rw [a1, b1], by rw [a2, b2], by rw [a3, b3]⟩
  · intro env c c'
    rw [(decompile_directory_mirror env c).1, (decompile_directory_mirror env c').1]
  · intro e v
    rfl
  · intro env c e he
    rw [(extract_rpa_mirror env c).1]
    obtain ⟨o, m⟩ := env
    simp only at he
    subst he
    rfl
  · intro env sd c e hne h0
    rw [(create_rpa_mirror env sd c).1]
    simp only [createResM, hne]
    have hb : (countFiles env.tree == 0) = false := by simpa using h0
    rw [hb]
    simp only [Bool.false_eq_true, if_false]

/-- Witness for C8: an archive that fails to open, and a create run
whose codec constructor raises. -/

theorem c8_witness :
    (extract_rpa ⟨.error "bad archive", none⟩ chOn).result
      = ⟨false, "Error: " ++ "bad archive", []⟩
    ∧ (create_rpa ⟨[.file "a" none], some "bad version", none⟩ "src" chOff).result
      = ⟨false, "Error: " ++ "bad version", []⟩ := by
  constructor
  · exact c8_theorem.2.2.2.2.1 ⟨.error "bad archive", none⟩ chOn "bad archive" rfl
  · exact c8_theorem.2.2.2.2.2 ⟨[.file "a" none], some "bad version", none⟩ "src" chOff
      "bad version" rfl (by simp [countFiles])

end Rentool

